import Mathlib

/-!
Verification of the transform/load pipeline of the `tesis-analitica-datos`
repository (files `src/transform/transform.py` and `src/load/load_to_bigquery.py`).

JSON documents are embedded as the inductive type `Json`; JSON numbers are
modelled as exact rationals (the decimal literals appearing in the claims are
exactly representable).  Python dictionaries are modelled as association lists
in insertion order, `None` as `Json.null`.  The external cryptographic digest
(`hashlib.md5`) is an opaque deterministic primitive; every embedded function
that calls it takes the digest as an explicit parameter `md5 : String → String`,
and every theorem quantifies over it, so nothing proved depends on the
internals of the digest.  Code paths on which the Python code raises an
exception (attribute errors on non-dict values, iteration over non-lists) are
modelled with `Except String`.
-/

/-- JSON-like values, as produced by `json.loads` / `ast.literal_eval`.
A number `num n e` is the exact decimal `n * 10 ^ (-e)` with `e` minimal
(no trailing zero in the fractional digits), the canonical form the embedded
number parser produces; every decimal literal of the source and the claims
is exactly representable.  (The scaled-decimal form is used instead of `Rat`
so that all arithmetic is kernel-computable.) -/
inductive Json where
  | null : Json
  | bool (b : Bool) : Json
  | num (n : Int) (e : Nat) : Json
  | str (s : String) : Json
  | arr (xs : List Json) : Json
  | obj (kvs : List (String × Json)) : Json
deriving Repr

/-- Python truthiness (`bool(x)`): `None`, `False`, `0`, `""`, `[]`, `\x7b\x7d`
are falsy, everything else is truthy. -/
def truthy : Json → Bool
  | Json.null => false
  | Json.bool b => b
  | Json.num n _ => n != 0
  | Json.str s => s != ""
  | Json.arr xs => !xs.isEmpty
  | Json.obj kvs => !kvs.isEmpty

/-- Python `a or b` on JSON values: `a` when truthy, else `b`. -/
def pyOrJ (a b : Json) : Json := if truthy a then a else b

/-- `d.get(k)` on a dict given as association list: first binding wins
(Python dict keys are unique), absent key gives `None` (`Json.null`). -/
def jlookup (kvs : List (String × Json)) (k : String) : Json :=
  (List.lookup k kvs).getD Json.null

/-- Decimal rendering of a scaled decimal: integers print without a
fractional part, other values with their (canonical) fractional digits.
Models the `repr` Python's `str`/`json.dumps` apply to parsed numbers; an
integral float printing as `10.0` in Python prints as `10` here, which no
claim depends on. -/
def numToStr (n : Int) (e : Nat) : String :=
  if e = 0 then toString n
  else
    let digits := toString n.natAbs
    let padded := String.mk (List.replicate (e + 1 - digits.length) '0') ++ digits
    (if n < 0 then "-" else "") ++ padded.dropRight e ++ "." ++ padded.takeRight e

/-- Strict lexicographic comparison of strings by code point, the order
`json.dumps(..., sort_keys=True)` sorts keys by. -/
def charListLt : List Char → List Char → Bool
  | [], [] => false
  | [], _ :: _ => true
  | _ :: _, [] => false
  | a :: as, b :: bs =>
      if a.toNat < b.toNat then true
      else if b.toNat < a.toNat then false
      else charListLt as bs

def strLt (a b : String) : Bool := charListLt a.data b.data

/-- Stable insertion sort (the stability of Python's `sorted`): each element
is inserted before the first strictly greater one. -/
def insertByLt (lt : α → α → Bool) (x : α) : List α → List α
  | [] => [x]
  | y :: ys => if lt y x then y :: insertByLt lt x ys else x :: y :: ys

def sortByLt (lt : α → α → Bool) : List α → List α
  | [] => []
  | x :: xs => insertByLt lt x (sortByLt lt xs)

/-- JSON string escaping (`json.dumps` with `ensure_ascii=False`); only the
escapes that can matter here are modelled, the exact escape format of exotic
control characters is irrelevant to every claim. -/
def escapeChar (c : Char) : List Char :=
  if c = '\\' then ['\\', '\\']
  else if c = '"' then ['\\', '"']
  else if c = '\n' then ['\\', 'n']
  else if c = '\t' then ['\\', 't']
  else if c = '\r' then ['\\', 'r']
  else [c]

def quoteStr (s : String) : String :=
  "\"" ++ String.mk (s.data.flatMap escapeChar) ++ "\""

mutual
/-- `json.dumps(v)`, with default separators `", "` and `": "`; when
`sortKeys = true` models `sort_keys=True` (keys sorted recursively). -/
def dumpJson (sortKeys : Bool) : Json → String
  | Json.null => "null"
  | Json.bool b => if b then "true" else "false"
  | Json.num n e => numToStr n e
  | Json.str s => quoteStr s
  | Json.arr xs => "[" ++ dumpArr sortKeys xs ++ "]"
  | Json.obj kvs =>
      let ps := dumpPairs sortKeys kvs
      let ps := if sortKeys then sortByLt (fun a b => strLt a.1 b.1) ps else ps
      "\x7b" ++ String.intercalate ", " (ps.map (fun p => quoteStr p.1 ++ ": " ++ p.2)) ++ "\x7d"

def dumpArr (sortKeys : Bool) : List Json → String
  | [] => ""
  | [x] => dumpJson sortKeys x
  | x :: xs => dumpJson sortKeys x ++ ", " ++ dumpArr sortKeys xs

def dumpPairs (sortKeys : Bool) : List (String × Json) → List (String × String)
  | [] => []
  | (k, v) :: t => (k, dumpJson sortKeys v) :: dumpPairs sortKeys t
end

/-- Python `str()` of a parsed JSON value (`str` of a string is itself,
numbers/booleans/None use their Python spelling; the `repr` of containers is
approximated by their JSON dump, which no claim depends on). -/
def pyStr : Json → String
  | Json.str s => s
  | Json.num n e => numToStr n e
  | Json.bool b => if b then "True" else "False"
  | Json.null => "None"
  | v => dumpJson false v

/-- Fuel-based splitter on a non-empty separator (the fuel, one unit per
input character, makes the recursion structural); same semantics as Python
`str.split(sep)`. -/
def splitOnAuxL (sep : List Char) : Nat → List Char → List Char → List (List Char)
  | _, acc, [] => [acc.reverse]
  | 0, acc, l => [acc.reverse ++ l]
  | fuel + 1, acc, c :: cs =>
      if sep.isPrefixOf (c :: cs) then
        acc.reverse :: splitOnAuxL sep fuel [] ((c :: cs).drop sep.length)
      else splitOnAuxL sep fuel (c :: acc) cs

/-- Python `s.split(sep)` for non-empty `sep`. -/
def pySplit (s sep : String) : List String :=
  (splitOnAuxL sep.data (s.data.length + 1) [] s.data).map String.mk

/-- Python `s.replace(pat, rep)` for non-empty `pat`: left-to-right,
non-overlapping, all occurrences. -/
def replaceAllL (pat rep : List Char) : Nat → List Char → List Char
  | _, [] => []
  | 0, l => l
  | fuel + 1, c :: cs =>
      if pat.isPrefixOf (c :: cs) then
        rep ++ replaceAllL pat rep fuel ((c :: cs).drop pat.length)
      else c :: replaceAllL pat rep fuel cs

def pyReplace (s pat rep : String) : String :=
  String.mk (replaceAllL pat.data rep.data (s.data.length + 1) s.data)

/-- Python `s.lower()` (ASCII; see the sanitizer note). -/
def pyLower (s : String) : String := String.mk (s.data.map Char.toLower)

/-- Python `str.strip()` (whitespace at both ends). -/
def pyStrip (s : String) : String :=
  String.mk (((s.data.dropWhile Char.isWhitespace).reverse.dropWhile Char.isWhitespace).reverse)

/-!
A fuel-based recursive-descent parser for the union of the JSON grammar and
the Python literal grammar, modelling the `json.loads`-then-`ast.literal_eval`
cascade of `try_parse_json_like`: double- or single-quoted strings,
`null`/`true`/`false` and `None`/`True`/`False`, signed decimal numbers
(optionally with an exponent), arrays and objects.  The two Python parsers
are only ever distinguished on inputs that exactly one of them accepts
(single quotes, which `json.loads` rejects); the union parser accepts the
same set of values, which is what `try_parse_json_like` returns.
-/

def skipWs : List Char → List Char
  | [] => []
  | c :: cs => if c = ' ' ∨ c = '\t' ∨ c = '\n' ∨ c = '\r' then skipWs cs else c :: cs

def isDigitC (c : Char) : Bool := 48 ≤ c.toNat && c.toNat ≤ 57

def natOfDigits (ds : List Char) : Nat :=
  ds.foldl (fun a c => a * 10 + (c.toNat - 48)) 0

/-- Strip trailing zero fractional digits, putting a scaled decimal in
canonical form (fuel-based, one unit per digit). -/
def canonDec : Nat → Int × Nat → Int × Nat
  | 0, p => p
  | fuel + 1, (n, e) =>
      if e = 0 then (n, 0)
      else if n % 10 == 0 then canonDec fuel (n / 10, e - 1)
      else (n, e)

/-- Parse an optionally signed decimal number with optional fraction and
exponent, returning its exact scaled-decimal value and the remaining input. -/
def parseNumber (cs : List Char) : Option ((Int × Nat) × List Char) :=
  let (neg, cs1) := match cs with
    | '-' :: t => (true, t)
    | _ => (false, cs)
  let ip := cs1.takeWhile isDigitC
  let cs2 := cs1.dropWhile isDigitC
  if ip.isEmpty then none
  else
    let (fp, cs3) := match cs2 with
      | '.' :: t =>
          let f := t.takeWhile isDigitC
          if f.isEmpty then (([] : List Char), cs2) else (f, t.dropWhile isDigitC)
      | _ => ([], cs2)
    let (eval?, cs4) : Option Int × List Char := match cs3 with
      | 'e' :: t | 'E' :: t =>
          let (eneg, t1) := match t with
            | '-' :: u => (true, u)
            | '+' :: u => (false, u)
            | _ => (false, t)
          let ed := t1.takeWhile isDigitC
          if ed.isEmpty then (none, cs3)
          else ((if eneg then some (-(natOfDigits ed : Int)) else some (natOfDigits ed)), t1.dropWhile isDigitC)
      | _ => (none, cs3)
    let m : Int := (natOfDigits (ip ++ fp) : Int)
    let d := fp.length
    let (n, e) : Int × Nat := match eval? with
      | some ex =>
          if 0 ≤ ex then
            let k := ex.toNat
            if k ≤ d then (m, d - k) else (m * ((10 ^ (k - d) : Nat) : Int), 0)
          else (m, d + ex.natAbs)
      | none => (m, d)
    let (n, e) := canonDec (e + 1) (n, e)
    some (((if neg then -n else n), e), cs4)

/-- Parse the body of a quoted string after the opening quote `q`,
accumulating into `acc`; handles the simple backslash escapes. -/
def parseStrBody (q : Char) (acc : List Char) : List Char → Option (String × List Char)
  | [] => none
  | c :: cs =>
      if c = q then some (String.mk acc.reverse, cs)
      else if c = '\\' then
        match cs with
        | [] => none
        | e :: cs' =>
            let d := if e = 'n' then '\n' else if e = 't' then '\t' else if e = 'r' then '\r' else e
            parseStrBody q (d :: acc) cs'
      else parseStrBody q (c :: acc) cs

def singleQuote : Char := Char.ofNat 39

mutual
def parseVal : Nat → List Char → Option (Json × List Char)
  | 0, _ => none
  | fuel + 1, cs =>
    match skipWs cs with
    | [] => none
    | c :: rest =>
      if c = '[' then parseArrTail fuel rest
      else if c = '\x7b' then parseObjTail fuel rest
      else if c = '"' then (parseStrBody '"' [] rest).map (fun p => (Json.str p.1, p.2))
      else if c = singleQuote then (parseStrBody singleQuote [] rest).map (fun p => (Json.str p.1, p.2))
      else if ['n', 'u', 'l', 'l'].isPrefixOf (c :: rest) then some (Json.null, (c :: rest).drop 4)
      else if ['N', 'o', 'n', 'e'].isPrefixOf (c :: rest) then some (Json.null, (c :: rest).drop 4)
      else if ['t', 'r', 'u', 'e'].isPrefixOf (c :: rest) then some (Json.bool true, (c :: rest).drop 4)
      else if ['T', 'r', 'u', 'e'].isPrefixOf (c :: rest) then some (Json.bool true, (c :: rest).drop 4)
      else if ['f', 'a', 'l', 's', 'e'].isPrefixOf (c :: rest) then some (Json.bool false, (c :: rest).drop 5)
      else if ['F', 'a', 'l', 's', 'e'].isPrefixOf (c :: rest) then some (Json.bool false, (c :: rest).drop 5)
      else (parseNumber (c :: rest)).map (fun p => (Json.num p.1.1 p.1.2, p.2))

/-- After an opening `[`: parse the element list and the closing bracket. -/
def parseArrTail : Nat → List Char → Option (Json × List Char)
  | 0, _ => none
  | fuel + 1, cs =>
    match skipWs cs with
    | ']' :: rest => some (Json.arr [], rest)
    | cs' =>
      match parseVal fuel cs' with
      | none => none
      | some (v, r) =>
        match parseArrRest fuel r with
        | none => none
        | some (vs, r') => some (Json.arr (v :: vs), r')

def parseArrRest : Nat → List Char → Option (List Json × List Char)
  | 0, _ => none
  | fuel + 1, cs =>
    match skipWs cs with
    | ']' :: rest => some ([], rest)
    | ',' :: rest =>
      match parseVal fuel rest with
      | none => none
      | some (v, r) =>
        match parseArrRest fuel r with
        | none => none
        | some (vs, r') => some (v :: vs, r')
    | _ => none

/-- After an opening brace: parse the key/value list and the closing brace. -/
def parseObjTail : Nat → List Char → Option (Json × List Char)
  | 0, _ => none
  | fuel + 1, cs =>
    match skipWs cs with
    | '\x7d' :: rest => some (Json.obj [], rest)
    | cs' =>
      match parseObjPair fuel cs' with
      | none => none
      | some (kv, r) =>
        match parseObjRest fuel r with
        | none => none
        | some (kvs, r') => some (Json.obj (kv :: kvs), r')

def parseObjRest : Nat → List Char → Option (List (String × Json) × List Char)
  | 0, _ => none
  | fuel + 1, cs =>
    match skipWs cs with
    | '\x7d' :: rest => some ([], rest)
    | ',' :: rest =>
      match parseObjPair fuel rest with
      | none => none
      | some (kv, r) =>
        match parseObjRest fuel r with
        | none => none
        | some (kvs, r') => some (kv :: kvs, r')
    | _ => none

def parseObjPair : Nat → List Char → Option ((String × Json) × List Char)
  | 0, _ => none
  | fuel + 1, cs =>
    match skipWs cs with
    | '"' :: rest =>
      match parseStrBody '"' [] rest with
      | none => none
      | some (k, r) =>
        match skipWs r with
        | ':' :: r' =>
          match parseVal fuel r' with
          | none => none
          | some (v, r'') => some ((k, v), r'')
        | _ => none
    | c :: rest =>
      if c = singleQuote then
        match parseStrBody singleQuote [] rest with
        | none => none
        | some (k, r) =>
          match skipWs r with
          | ':' :: r' =>
            match parseVal fuel r' with
            | none => none
            | some (v, r'') => some ((k, v), r'')
          | _ => none
      else none
    | [] => none
end

/-- Parse a whole string as one JSON/Python-literal value; fails unless the
entire input (up to whitespace) is consumed, as both `json.loads` and
`ast.literal_eval` do. -/
def parseJsonLikeStr (s : String) : Option Json :=
  match parseVal (s.length + 8) s.data with
  | some (v, rest) => if (skipWs rest).isEmpty then some v else none
  | none => none

/-- `try_parse_json_like` (transform.py, lines 37-58): `None` stays `None`,
dicts and lists are returned unchanged, strings are stripped and parsed
(empty string gives `None`, parse failure gives `None`).  For numbers and
booleans, `str()` followed by `ast.literal_eval` round-trips to the same
value, which is what the last two cases record. -/
def try_parse_json_like : Json → Option Json
  | Json.null => none
  | Json.obj kvs => some (Json.obj kvs)
  | Json.arr xs => some (Json.arr xs)
  | Json.str s => if pyStrip s = "" then none else parseJsonLikeStr (pyStrip s)
  | Json.num n e => some (Json.num n e)
  | Json.bool b => some (Json.bool b)

/-- `ensure_list_of_same_length` (transform.py, lines 61-64); `none` models
a Python `None` argument. -/
def ensure_list_of_same_length (l1 l2 : Option Json) : Bool :=
  match l1, l2 with
  | some (Json.arr xs), some (Json.arr ys) => xs.length == ys.length
  | _, _ => false

/-- The coercion the expanders apply to a field that should be a list:
`x if isinstance(x, list) else try_parse_json_like(x)`. -/
def coerceList : Json → Option Json
  | Json.arr xs => some (Json.arr xs)
  | t => try_parse_json_like t

/-- A flat output record: a Python dict in insertion order. -/
abbrev Record := List (String × Json)

/-- Python dict assignment/update `d[k] = v`: replace the value in place when
the key is present (source dicts have unique keys), else append. -/
def setAssoc (r : Record) (k : String) (v : Json) : Record :=
  if (List.lookup k r).isSome then
    r.map (fun p => if p.1 = k then (k, v) else p)
  else r ++ [(k, v)]

/-- `"|".join(map(str, row.values))` (transform.py, line 21): rows are given
as their already-stringified values. -/
def joinValues : List String → String
  | [] => ""
  | [v] => v
  | v :: vs => v ++ "|" ++ joinValues vs

/-- `generate_unique_id` (transform.py, lines 20-22). -/
def generate_unique_id (md5 : String → String) (row : List String) : String :=
  md5 (joinValues row)

/-- The per-index record of `expand_clima`'s expansion branch
(transform.py, lines 144-155). -/
def climaRow (md5 : String → String) (fuente fecha id_base : String)
    (kvs : List (String × Json)) (tp : Json × Json) : Record :=
  [("fuente_archivo", Json.str fuente),
   ("fecha_proceso_utc", Json.str fecha),
   ("id_registro", Json.str (md5 (id_base ++ "|" ++ pyStr tp.1 ++ "|" ++ pyStr tp.2))),
   ("time", tp.1),
   ("temperature_2m", tp.2),
   ("latitude", jlookup kvs "latitude"),
   ("longitude", jlookup kvs "longitude"),
   ("elevation", jlookup kvs "elevation")]

/-- The scalar-or-serialize step of `expand_clima`'s fallback (lines 159-168):
strings, numbers and booleans are kept, everything else is replaced by its
JSON dump (`json.dumps` never fails on parsed JSON values, so the
`str(v)` repair branch is unreachable). -/
def scalarize : Json → Json
  | Json.str s => Json.str s
  | Json.num n e => Json.num n e
  | Json.bool b => Json.bool b
  | v => Json.str (dumpJson false v)

/-- `expand_clima`'s fallback record (lines 158-174): the flattened top-level
dict updated with the three injected fields. -/
def climaFallback (md5 : String → String) (fuente fecha id_base : String)
    (kvs : List (String × Json)) : Record :=
  let flattened := kvs.map (fun p => (p.1, scalarize p.2))
  setAssoc (setAssoc (setAssoc flattened
    "fuente_archivo" (Json.str fuente))
    "fecha_proceso_utc" (Json.str fecha))
    "id_registro" (Json.str (md5 (id_base ++ "_fallback")))

/-- The body of `expand_clima` once `obj` is known to be a dict `kvs` with a
dict-valued (possibly defaulted) `hourly` block `hkvs`; pure from here on.
`hourly.get("time") or obj.get("hourly.time")` and the analogous
`temperature_2m` chain are Python `or`-chains on truthiness (the source
repeats the same `hourly.get("hourly.temperature_2m")` lookup twice; the
third operand adds nothing). -/
def expandClimaCore (md5 : String → String) (fuente fecha id_base : String)
    (kvs hkvs : List (String × Json)) : List Record :=
  let time_field := pyOrJ (jlookup hkvs "time") (jlookup kvs "hourly.time")
  let temp_field := pyOrJ (jlookup hkvs "temperature_2m") (jlookup hkvs "hourly.temperature_2m")
  let time_list := coerceList time_field
  let temp_list := coerceList temp_field
  match time_list, temp_list with
  | some (Json.arr ts), some (Json.arr ps) =>
      if ts.length = ps.length then
        (ts.zip ps).map (climaRow md5 fuente fecha id_base kvs)
      else [climaFallback md5 fuente fecha id_base kvs]
  | _, _ => [climaFallback md5 fuente fecha id_base kvs]

/-- `expand_clima` (transform.py, lines 132-174).  When `obj` is not a dict,
`hourly` defaults to the empty dict, so `hourly.get("time")` is `None`
(falsy) and the `or`-chain evaluates `obj.get("hourly.time")`, which raises
`AttributeError`; when `obj["hourly"]` exists but is not a dict,
`hourly.get("time")` itself raises.  Both raising paths are `Except.error`. -/
def expand_clima (md5 : String → String) (obj : Json)
    (fuente fecha id_base : String) : Except String (List Record) :=
  match obj with
  | Json.obj kvs =>
      match (List.lookup "hourly" kvs).getD (Json.obj []) with
      | Json.obj hkvs => Except.ok (expandClimaCore md5 fuente fecha id_base kvs hkvs)
      | _ => Except.error "AttributeError: hourly value has no attribute get"
  | _ => Except.error "AttributeError: object has no attribute get"

/-- `expand_usgs_feature` (transform.py, lines 177-199).  For a dict feature:
the properties are emitted under dot-prefixed keys, a string-valued
`geometry.coordinates` is parsed back to a value when possible, and the
content hash of the record (before the id is added) becomes `id_registro`.
`props.items()` and `geom.get` raise when those values are not dicts. -/
def expand_usgs_feature (md5 : String → String) (feature : Json)
    (fuente fecha : String) : Except String Record :=
  match feature with
  | Json.obj kvs =>
      match (List.lookup "properties" kvs).getD (Json.obj []),
            (List.lookup "geometry" kvs).getD (Json.obj []) with
      | Json.obj props, Json.obj geom =>
          let coords0 := jlookup geom "coordinates"
          let coords := match coords0 with
            | Json.str s => (try_parse_json_like (Json.str s)).getD (Json.str s)
            | c => c
          let out : Record :=
            props.map (fun p => ("properties." ++ p.1, p.2)) ++
            [("geometry.coordinates", coords),
             ("type", jlookup kvs "type"),
             ("id", jlookup kvs "id"),
             ("fuente_archivo", Json.str fuente),
             ("fecha_proceso_utc", Json.str fecha)]
          Except.ok (out ++ [("id_registro", Json.str (md5 (dumpJson true (Json.obj out))))])
      | _, _ => Except.error "AttributeError: properties or geometry is not a dict"
  | _ =>
      let out : Record :=
        [("feature", Json.str (dumpJson false feature)),
         ("fuente_archivo", Json.str fuente),
         ("fecha_proceso_utc", Json.str fecha)]
      Except.ok (out ++ [("id_registro", Json.str (md5 (dumpJson true (Json.obj out))))])

/-- `expand_sismos_list` (transform.py, lines 202-213): a dict with a
list-valued `features` key, or a bare list, is expanded feature by feature;
anything else yields no records. -/
def expand_sismos_list (md5 : String → String) (obj : Json)
    (fuente fecha : String) : Except String (List Record) :=
  match obj with
  | Json.obj kvs =>
      match List.lookup "features" kvs with
      | some (Json.arr fs) => fs.mapM (fun f => expand_usgs_feature md5 f fuente fecha)
      | _ => Except.ok []
  | Json.arr fs => fs.mapM (fun f => expand_usgs_feature md5 f fuente fecha)
  | _ => Except.ok []

/-- Tag of the two output streams of `expand_sercop_releases`. -/
inductive RecKind where
  | release : RecKind
  | item : RecKind
deriving Repr, DecidableEq

/-- The item-level record of transform.py, lines 257-267.  `it.get("unit")`
must be a dict for a unit value to be extracted; `(it.get("unit", \x7b\x7d) or
\x7b\x7d).get("value")` on a dict is just the lookup with `None` default. -/
def item_record (md5 : String → String) (fuente fecha : String)
    (release_id award_id : Json) (ikvs : List (String × Json)) : Record :=
  [("release_id", release_id),
   ("award_id", award_id),
   ("item_id", pyOrJ (jlookup ikvs "id") (Json.str (md5 (dumpJson true (Json.obj ikvs))))),
   ("description", jlookup ikvs "description"),
   ("quantity", jlookup ikvs "quantity"),
   ("unit_value", match jlookup ikvs "unit" with
      | Json.obj ukvs => jlookup ukvs "value"
      | _ => Json.null),
   ("fuente_archivo", Json.str fuente),
   ("fecha_proceso_utc", Json.str fecha),
   ("id_registro", Json.str (md5 (dumpJson true
      (Json.obj [("item", Json.obj ikvs), ("release", release_id)]))))]

/-- One item (transform.py, lines 256-268): non-dict items raise. -/
def expand_item (md5 : String → String) (fuente fecha : String)
    (release_id award_id : Json) (it : Json) : Except String (RecKind × Record × Json) :=
  match it with
  | Json.obj ikvs =>
      Except.ok (RecKind.item, item_record md5 fuente fecha release_id award_id ikvs, it)
  | _ => Except.error "AttributeError: item has no attribute get"

/-- The award identifier of line 254: `aw.get("id") or md5(json.dumps(aw,
sort_keys=True))`. -/
def award_id_of (md5 : String → String) (akvs : List (String × Json)) : Json :=
  pyOrJ (jlookup akvs "id") (Json.str (md5 (dumpJson true (Json.obj akvs))))

/-- One award (transform.py, lines 253-268): its items, each a dict;
iterating a truthy non-list `items` value raises. -/
def expand_award (md5 : String → String) (fuente fecha : String)
    (release_id : Json) (aw : Json) : Except String (List (RecKind × Record × Json)) :=
  match aw with
  | Json.obj akvs =>
      match pyOrJ (jlookup akvs "items") (Json.arr []) with
      | Json.arr its => its.mapM (expand_item md5 fuente fecha release_id (award_id_of md5 akvs))
      | _ => Except.error "TypeError: items value is not iterable as dicts"
  | _ => Except.error "AttributeError: award has no attribute get"

/-- The release identifier of line 238: `rel.get("id") or rel.get("ocid") or
md5(json.dumps(rel, sort_keys=True))` — the `or`-chain makes it the explicit
`id` when truthy, else the explicit `ocid` when truthy, else the content
hash, in that priority order. -/
def sercopReleaseId (md5 : String → String) (rkvs : List (String × Json)) : Json :=
  pyOrJ (jlookup rkvs "id")
    (pyOrJ (jlookup rkvs "ocid") (Json.str (md5 (dumpJson true (Json.obj rkvs)))))

/-- The release-level record of transform.py, lines 239-247. -/
def release_base_record (md5 : String → String) (fuente fecha : String)
    (rkvs : List (String × Json)) : Record :=
  [("release_id", sercopReleaseId md5 rkvs),
   ("fuente_archivo", Json.str fuente),
   ("fecha_proceso_utc", Json.str fecha),
   ("id_registro", Json.str (md5 (pyStr (sercopReleaseId md5 rkvs)))),
   ("buyer", if truthy (jlookup rkvs "buyer")
             then Json.str (dumpJson false (jlookup rkvs "buyer")) else Json.null),
   ("date", jlookup rkvs "date")]

/-- One release (transform.py, lines 236-268): the release-level record is
yielded first, then the item-level records of every award. -/
def expand_one_release (md5 : String → String) (fuente fecha : String)
    (rel : Json) : Except String (List (RecKind × Record × Json)) :=
  match rel with
  | Json.obj rkvs =>
      match pyOrJ (jlookup rkvs "awards") (Json.arr []) with
      | Json.arr aws =>
          (aws.mapM (expand_award md5 fuente fecha (sercopReleaseId md5 rkvs))).map
            (fun ls => (RecKind.release, release_base_record md5 fuente fecha rkvs, rel) :: ls.flatten)
      | _ => Except.error "TypeError: awards value is not iterable as dicts"
  | _ => Except.error "AttributeError: release has no attribute get"

/-- `expand_sercop_releases` (transform.py, lines 216-268).  The `releases`
value may be a JSON-encoded string (parsed), a native list, or absent, in
which case a list `obj` is used directly and any other `obj` is wrapped as
the single release `[obj]`.  A falsy coerced value yields no records
(`if not releases: return []`); iterating a truthy non-list raises. -/
def expand_sercop_releases (md5 : String → String) (obj : Json)
    (fuente fecha : String) : Except String (List (RecKind × Record × Json)) :=
  let releases_raw := match obj with
    | Json.obj kvs => jlookup kvs "releases"
    | _ => Json.null
  let releases : Json :=
    match releases_raw with
    | Json.str s => (try_parse_json_like (Json.str s)).getD Json.null
    | Json.arr xs => Json.arr xs
    | _ => match obj with
           | Json.arr xs => Json.arr xs
           | _ => Json.arr [obj]
  if truthy releases then
    match releases with
    | Json.arr rels =>
        (rels.mapM (expand_one_release md5 fuente fecha)).map List.flatten
    | _ => Except.error "TypeError: releases value is not iterable as dicts"
  else Except.ok []

/-!  Tabular Reader (`read_csv_robusto`, transform.py, lines 70-92) and the
Load Gate (`should_skip_file`, `validate_csv`, `clean_bq_column`,
load_to_bigquery.py). -/


/-- The lines obtained by iterating an open text file: the pieces between
newlines, with no trailing empty line after a final newline.  (Lone `\r`
line breaks are normalised by Python's universal newlines; `pyStrip` removes
any remaining `\r`, so modelling only `\n` breaks is faithful here.) -/
def pythonLines (s : String) : List String :=
  if s = "" then []
  else
    let ps := pySplit s "\n"
    if ps.getLast? = some "" then ps.dropLast else ps

/-- A parsed rectangular record set: pandas DataFrame columns plus rows
(`none` is a NaN pad). -/
structure Df where
  columns : List String
  rows : List (List (Option String))
deriving Repr, DecidableEq

/-- The last-resort branch of `read_csv_robusto` (lines 84-92): every line is
stripped and split on commas, `pd.DataFrame(rows)` gives the ragged rows as
many columns as the longest row (shorter rows padded with NaN), and when at
least one row exists the columns are renamed positionally `col_0, col_1, …`. -/
def lastResortDf (content : String) : Df :=
  let rows := (pythonLines content).map (fun l => pySplit (pyStrip l) ",")
  let m := rows.foldl (fun acc r => max acc r.length) 0
  { columns := if rows.isEmpty then [] else (List.range m).map (fun i => "col_" ++ toString i),
    rows := rows.map (fun r => r.map some ++ List.replicate (m - r.length) none) }

/-- `read_csv_robusto` (lines 70-92): the three `pd.read_csv` attempts
(utf-8/c engine, latin-1/c engine, latin-1/python engine skipping bad lines)
are external library calls, modelled by their outcomes — `attempts` lists,
in order, `some df` for an attempt that parses without raising and `none`
for one that raises.  The loop returns the first non-raising result
unconditionally; only when all three raise does the last resort run, and the
last resort itself never raises (it is a total function of the content). -/
def read_csv_robusto (attempts : List (Option Df)) (content : String) : Df :=
  match attempts.findSome? id with
  | some df => df
  | none => lastResortDf content

/-- Python substring test `pat in s`. -/
def containsSubstr (s pat : String) : Bool := decide (pat.data <:+: s.data)

/-- Python `s.endswith(suffix)`. -/
def endsWithStr (s suffix : String) : Bool := List.isSuffixOf suffix.data s.data

/-- `should_skip_file` (load_to_bigquery.py, lines 31-60).  The artifact set
(`os.path.exists` over `data/processed`) is the parameter `files`.  Rules in
source order: the three known-corrupt JSON suffixes, the MIES/MREMH broken
delimiter family, then the `_cleancsv.csv` duplicate whose `_clean.csv`
sibling exists. -/
def should_skip_file (files : List String) (filename : String) : Bool × String :=
  if endsWithStr filename "_clean.json" then (true, "JSON corrupto (_clean.json)")
  else if endsWithStr filename "_cleanjson.json" then (true, "JSON con campos inválidos (_cleanjson.json)")
  else if endsWithStr filename "_cleanbin.json" then (true, "Duplicado (_cleanbin.json)")
  else if (containsSubstr (pyLower filename) "mies_" || containsSubstr (pyLower filename) "mremh_")
          && containsSubstr filename "_cleancsv.csv" then
    (true, "CSV MIES/MREMH con delimitadores rotos")
  else if containsSubstr filename "_cleancsv.csv" then
    let base := pyReplace filename "_cleancsv.csv" ""
    if files.contains (base ++ "_clean.csv") then (true, "Duplicado de _clean.csv")
    else (false, "")
  else (false, "")

/-- The number of columns `pd.read_csv(path, sep=separator, nrows=1,
engine="python")` detects: the field count of the first non-blank line
(blank lines are skipped by default); no line at all raises
`EmptyDataError`, modelled as `none`. -/
def pandasHeaderNCols (content : String) (sep : String) : Option Nat :=
  match (pythonLines content).filter (fun l => !(pyStrip l).isEmpty) with
  | [] => none
  | l :: _ => some ((pySplit (pyStrip l) sep).length)

/-- `validate_csv` (load_to_bigquery.py, lines 66-96) over the decoded file
content: reject when the first line has more than 10 semicolons and no
comma; otherwise parse a one-row sample with the majority separator and
reject when at most one column is detected (or the parse itself fails,
the outer `except` branch). -/
def firstLineOf (content : String) : String :=
  pyStrip ((pySplit content "\n").headD "")

/-- The separator `validate_csv` picks: semicolon when the first line has
strictly more semicolons than commas. -/
def chosenSep (content : String) : String :=
  if (firstLineOf content).data.count ';' > (firstLineOf content).data.count ',' then ";" else ","

def validate_csv (content : String) : Bool × String :=
  let semicolon_count := (firstLineOf content).data.count ';'
  let comma_count := (firstLineOf content).data.count ','
  if semicolon_count > 10 && comma_count == 0 then
    (false, "CSV malformado (solo semicolons sin comas)")
  else
    match pandasHeaderNCols content (chosenSep content) with
    | none => (false, "Error al parsear: EmptyDataError")
    | some n => if n ≤ 1 then (false, "Solo 1 columna detectada (delimitador incorrecto)")
                else (true, "")

/-!  `clean_bq_column` (load_to_bigquery.py, lines 102-126), character by
character over `s.data`.  Python's `str.lower()` is modelled by
`Char.toLower` (ASCII); the handful of non-ASCII characters whose Python
lowercase form contains an ASCII letter are removed here instead of kept,
which affects neither the identifier shape nor idempotence. -/

def isLowerAlpha (c : Char) : Bool := 97 ≤ c.toNat && c.toNat ≤ 122

/-- The character class of `re.sub(r"[^a-z0-9_]", "", ...)`. -/
def keepChar (c : Char) : Bool := isLowerAlpha c || isDigitC c || c = '_'

/-- The `replacements` dict applied by sequential `str.replace` calls; no
replacement produces a character a later replacement consumes, so the
sequence is one character-wise pass: `. ; space - / ,` become `_`,
parentheses and quote characters are removed. -/
def replaceChars : List Char → List Char
  | [] => []
  | c :: cs =>
      if c = '.' ∨ c = ';' ∨ c = ' ' ∨ c = '-' ∨ c = '/' ∨ c = ',' then '_' :: replaceChars cs
      else if c = '(' ∨ c = ')' ∨ c = '"' ∨ c = singleQuote then replaceChars cs
      else c :: replaceChars cs

/-- `re.sub(r"_+", "_", ...)`: collapse runs of underscores. -/
def squeezeUnderscores : List Char → List Char
  | [] => []
  | a :: t =>
      match t with
      | [] => [a]
      | b :: t' =>
          if a = '_' && b = '_' then squeezeUnderscores (b :: t')
          else a :: squeezeUnderscores (b :: t')

/-- `.strip("_")`. -/
def trimUnderscores (l : List Char) : List Char :=
  ((l.dropWhile (fun c => c = '_')).reverse.dropWhile (fun c => c = '_')).reverse

/-- The final stages of `clean_bq_column`: character-class filter,
underscore collapse and trim, `col_` prefix for a leading digit, `unnamed`
for an empty result. -/
def finishCols (l4 : List Char) : List Char :=
  let l5 := l4.filter keepChar
  let l6 := squeezeUnderscores l5
  let l7 := trimUnderscores l6
  let l8 := match l7.head? with
    | some c => if isDigitC c then 'c' :: 'o' :: 'l' :: '_' :: l7 else l7
    | none => l7
  if l8.isEmpty then "unnamed".data else l8

/-- `clean_bq_column` on the character list: BOM removal, strip, lower,
replacements, then `finishCols`. -/
def clean_bq_column_chars (l : List Char) : List Char :=
  let l1 := l.filter (fun c => c ≠ Char.ofNat 65279)
  let l2 := ((l1.dropWhile Char.isWhitespace).reverse.dropWhile Char.isWhitespace).reverse
  let l3 := l2.map Char.toLower
  finishCols (replaceChars l3)

def clean_bq_column (s : String) : String :=
  String.mk (clean_bq_column_chars s.data)

/-- The regular expression `^[a-z][a-z0-9_]*$` of the claim, as a decidable
predicate. -/
def matchesIdent (s : String) : Bool :=
  match s.data with
  | [] => false
  | c :: t => isLowerAlpha c && t.all keepChar

/-!  Claims about the Tabular Reader. -/

/-- A one-column parse outcome for the first `pd.read_csv` attempt. -/
def dfOneCol : Df := { columns := ["v"], rows := [[some "x"]] }

/-- A two-column parse outcome for the second attempt. -/
def dfTwoCol : Df := { columns := ["v", "w"], rows := [[some "x", some "y"]] }

/-- C2, counterexample: when the first `pd.read_csv` attempt succeeds with a
single column, `read_csv_robusto` returns that one-column result instead of
proceeding to the next fallback — the loop has no column-count check. -/
theorem c2_counterexample :
    read_csv_robusto [some dfOneCol, some dfTwoCol, none] "v\nx" = dfOneCol ∧
    dfOneCol.columns.length = 1 ∧ dfOneCol ≠ dfTwoCol := by
  refine ⟨rfl, rfl, by decide⟩

/-- C2, amended: `read_csv_robusto` accepts the first parse attempt that does
not raise, regardless of its column count — in particular a one-column
result; single-column detection happens only in the pre-load `validate_csv`. -/
theorem c2_amended (df : Df) (rest : List (Option Df)) (content : String)
    (h : df.columns.length = 1) :
    read_csv_robusto (some df :: rest) content = df := by
  simp [read_csv_robusto, List.findSome?_cons]

/-- Witness for `c2_amended` at a concrete one-column outcome. -/
theorem c2_amended_witness :
    read_csv_robusto [some dfOneCol] "v\nx" = dfOneCol :=
  c2_amended dfOneCol [] "v\nx" rfl

/-- C8, counterexample: the last resort does not use the first line's column
count — `pd.DataFrame` of the ragged split gives the maximum field count over
all lines.  With content `"a\nb,c"` the first line yields 1 field but the
result has 2 columns. -/
theorem c8_counterexample :
    (read_csv_robusto [none, none, none] "a\nb,c").columns = ["col_0", "col_1"] ∧
    (pySplit (pyStrip "a") ",").length = 1 := by
  refine ⟨rfl, rfl⟩

/-- C8, amended: when every `pd.read_csv` attempt raises, the reader always
returns the last-resort record set — a total function splitting each stripped
line on commas — with one row per line and positional column names
`col_0, col_1, …` up to the maximum field count over all lines. -/
theorem c8_amended (attempts : List (Option Df)) (content : String)
    (h : attempts.findSome? id = none) :
    read_csv_robusto attempts content = lastResortDf content ∧
    (lastResortDf content).rows.length = (pythonLines content).length ∧
    (pythonLines content ≠ [] →
      (lastResortDf content).columns =
        (List.range (((pythonLines content).map (fun l => pySplit (pyStrip l) ",")).foldl
          (fun acc r => max acc r.length) 0)).map (fun i => "col_" ++ toString i)) := by
  refine ⟨by simp [read_csv_robusto, h], by simp [lastResortDf], ?_⟩
  intro hne
  have hm : ((pythonLines content).map (fun l => pySplit (pyStrip l) ",")).isEmpty = false := by
    simp [List.isEmpty_eq_false, hne]
  simp [lastResortDf, hm]

/-- Witness for `c8_amended` on concrete garbage content. -/
theorem c8_amended_witness :
    read_csv_robusto [none] "x,y\nz" = lastResortDf "x,y\nz" ∧
    (lastResortDf "x,y\nz").columns = ["col_0", "col_1"] := by
  have h := c8_amended [none] "x,y\nz" rfl
  exact ⟨h.1, (h.2.2 (by decide)).trans (by decide)⟩

/-!  Claims about the Load Gate. -/

/-- C6: `validate_csv` rejects a candidate whenever the first line has more
than 10 semicolons and no comma, and also whenever the one-row sample parsed
with the chosen separator detects at most one column. -/
theorem c6_validate_csv_rejects (content : String)
    (h : ((firstLineOf content).data.count ';' > 10 ∧ (firstLineOf content).data.count ',' = 0) ∨
         (∃ n, pandasHeaderNCols content (chosenSep content) = some n ∧ n ≤ 1)) :
    (validate_csv content).1 = false := by
  unfold validate_csv
  rcases h with ⟨h1, h2⟩ | ⟨n, hn, hle⟩
  · simp [h1, h2]
  · by_cases hb : ((firstLineOf content).data.count ';' > 10 ∧ (firstLineOf content).data.count ',' = 0)
    · simp [hb.1, hb.2]
    · have hb' : ((decide ((firstLineOf content).data.count ';' > 10) &&
          ((firstLineOf content).data.count ',' == 0)) = false) := by
        rcases Nat.lt_or_ge 10 ((firstLineOf content).data.count ';') with hgt | hge
        · have : (firstLineOf content).data.count ',' ≠ 0 := fun hc => hb ⟨hgt, hc⟩
          simp [this]
        · simp [Nat.not_lt_of_le hge]
      simp only [hb', Bool.false_eq_true, if_false, hn, hle, if_pos]

/-- Witness for `c6_validate_csv_rejects`: the spec's eleven-semicolon first
line is rejected. -/
theorem c6_witness :
    (validate_csv "a;b;c;d;e;f;g;h;i;j;k;\nrow2").1 = false :=
  c6_validate_csv_rejects "a;b;c;d;e;f;g;h;i;j;k;\nrow2" (Or.inl (by decide))

/-- A pattern that neither ends a given suffix nor is ended by it cannot be a
suffix of any string with that suffix appended. -/
theorem endsWithStr_append_false (x suffix pat : String)
    (h1 : ¬ pat.data <:+ suffix.data) (h2 : ¬ suffix.data <:+ pat.data) :
    endsWithStr (x ++ suffix) pat = false := by
  rw [Bool.eq_false_iff]
  intro hcon
  have hsuf : pat.data <:+ (x ++ suffix).data := List.isSuffixOf_iff_suffix.mp hcon
  rw [String.data_append] at hsuf
  have h3 : suffix.data <:+ x.data ++ suffix.data := List.suffix_append _ _
  rcases List.suffix_or_suffix_of_suffix hsuf h3 with h | h
  · exact h1 h
  · exact h2 h

/-- A string always contains an appended suffix as a substring. -/
theorem containsSubstr_append_right (x pat : String) :
    containsSubstr (x ++ pat) pat = true := by
  unfold containsSubstr
  rw [decide_eq_true_eq, String.data_append]
  exact (List.suffix_append x.data pat.data).isInfix

/-- C7, counterexample: for the base name `mies_x`, the artifact
`mies_x_cleancsv.csv` is skipped by the earlier MIES/MREMH known-bad rule,
not as a duplicate superseded by its `_clean.csv` sibling — the recorded
reason is the broken-delimiter one, and the rule fires whether or not the
sibling exists. -/
theorem c7_counterexample :
    should_skip_file ["mies_x_clean.csv", "mies_x_cleancsv.csv"] "mies_x_cleancsv.csv"
      = (true, "CSV MIES/MREMH con delimitadores rotos") ∧
    should_skip_file [] "mies_x_cleancsv.csv"
      = (true, "CSV MIES/MREMH con delimitadores rotos") ∧
    "CSV MIES/MREMH con delimitadores rotos" ≠ "Duplicado de _clean.csv" := by
  refine ⟨by decide, by decide, by decide⟩

/-- C7, amended: for a base name `x` outside the MIES/MREMH known-bad family
(and not itself containing the duplicate suffix), when both `x_cleancsv.csv`
and `x_clean.csv` are in the artifact set, the former is skipped with the
duplicate reason and the latter is not skipped. -/
theorem c7_amended (x : String) (files : List String)
    (h1 : containsSubstr (pyLower (x ++ "_cleancsv.csv")) "mies_" = false)
    (h2 : containsSubstr (pyLower (x ++ "_cleancsv.csv")) "mremh_" = false)
    (h3 : pyReplace (x ++ "_cleancsv.csv") "_cleancsv.csv" "" = x)
    (h4 : containsSubstr (x ++ "_clean.csv") "_cleancsv.csv" = false)
    (hmem : files.contains (x ++ "_clean.csv") = true) :
    should_skip_file files (x ++ "_cleancsv.csv") = (true, "Duplicado de _clean.csv") ∧
    should_skip_file files (x ++ "_clean.csv") = (false, "") := by
  constructor
  · unfold should_skip_file
    rw [endsWithStr_append_false x "_cleancsv.csv" "_clean.json" (by decide) (by decide),
        endsWithStr_append_false x "_cleancsv.csv" "_cleanjson.json" (by decide) (by decide),
        endsWithStr_append_false x "_cleancsv.csv" "_cleanbin.json" (by decide) (by decide),
        h1, h2, containsSubstr_append_right x "_cleancsv.csv", h3]
    simp [hmem]
    exact (by simpa using hmem)
  · unfold should_skip_file
    rw [endsWithStr_append_false x "_clean.csv" "_clean.json" (by decide) (by decide),
        endsWithStr_append_false x "_clean.csv" "_cleanjson.json" (by decide) (by decide),
        endsWithStr_append_false x "_clean.csv" "_cleanbin.json" (by decide) (by decide),
        h4]
    simp

/-- Witness for `c7_amended` at the spec's own test vector `x`. -/
theorem c7_witness :
    should_skip_file ["x_clean.csv", "x_cleancsv.csv"] "x_cleancsv.csv"
      = (true, "Duplicado de _clean.csv") ∧
    should_skip_file ["x_clean.csv", "x_cleancsv.csv"] "x_clean.csv" = (false, "") :=
  c7_amended "x" ["x_clean.csv", "x_cleancsv.csv"]
    (by decide) (by decide) (by decide) (by decide) (by decide)

/-!  Claim about the Record Identifier. -/

/-- Character-level counterpart of `joinValues`. -/
def charJoin : List (List Char) → List Char
  | [] => []
  | [v] => v
  | v :: vs => v ++ '|' :: charJoin vs

theorem joinValues_data (vs : List String) :
    (joinValues vs).data = charJoin (vs.map String.data) := by
  induction vs with
  | nil => rfl
  | cons v t ih =>
    cases t with
    | nil => rfl
    | cons w u =>
      show (v ++ "|" ++ joinValues (w :: u)).data = v.data ++ '|' :: charJoin ((w :: u).map String.data)
      rw [String.data_append, String.data_append, ih,
          show "|".data = ['|'] from rfl, List.append_assoc]
      rfl

/-- Splitting at the first separator is unambiguous when neither side of the
separator contains it. -/
theorem sep_split (a : List Char) (b t u : List Char) (ha : '|' ∉ a) (hb : '|' ∉ b)
    (h : a ++ '|' :: t = b ++ '|' :: u) : a = b ∧ t = u := by
  induction a generalizing b with
  | nil =>
    cases b with
    | nil => simpa using h
    | cons c cs =>
      simp only [List.nil_append, List.cons_append, List.cons.injEq] at h
      exact absurd (h.1 ▸ List.mem_cons_self c cs) hb
  | cons c cs ih =>
    cases b with
    | nil =>
      simp only [List.nil_append, List.cons_append, List.cons.injEq] at h
      exact absurd (h.1 ▸ List.mem_cons_self c cs) ha
    | cons d ds =>
      simp only [List.cons_append, List.cons.injEq] at h
      obtain ⟨hcd, h'⟩ := h
      have hha : '|' ∉ cs := fun hm => ha (List.mem_cons_of_mem c hm)
      have hhb : '|' ∉ ds := fun hm => hb (List.mem_cons_of_mem d hm)
      obtain ⟨h1, h2⟩ := ih ds hha hhb h'
      exact ⟨by rw [hcd, h1], h2⟩

/-- `charJoin` is injective on non-empty lists of separator-free strings. -/
theorem charJoin_inj (xs : List (List Char)) (ys : List (List Char))
    (hx : ∀ s ∈ xs, '|' ∉ s) (hy : ∀ s ∈ ys, '|' ∉ s)
    (hxne : xs ≠ []) (hyne : ys ≠ [])
    (h : charJoin xs = charJoin ys) : xs = ys := by
  induction xs generalizing ys with
  | nil => exact absurd rfl hxne
  | cons a as ih =>
    cases ys with
    | nil => exact absurd rfl hyne
    | cons b bs =>
      have hxa : '|' ∉ a := hx a (List.mem_cons_self a as)
      have hyb : '|' ∉ b := hy b (List.mem_cons_self b bs)
      cases as with
      | nil =>
        cases bs with
        | nil =>
          have : a = b := by simpa [charJoin] using h
          rw [this]
        | cons b' bs' =>
          have h' : a = b ++ '|' :: charJoin (b' :: bs') := by simpa [charJoin] using h
          have : '|' ∈ a := by
            rw [h']
            exact List.mem_append_right b (List.mem_cons_self _ _)
          exact absurd this hxa
      | cons a' as' =>
        cases bs with
        | nil =>
          have h' : a ++ '|' :: charJoin (a' :: as') = b := by simpa [charJoin] using h
          have : '|' ∈ b := by
            rw [← h']
            exact List.mem_append_right a (List.mem_cons_self _ _)
          exact absurd this hyb
        | cons b' bs' =>
          have h' : a ++ '|' :: charJoin (a' :: as') = b ++ '|' :: charJoin (b' :: bs') := by
            simpa [charJoin] using h
          obtain ⟨hab, hjoin⟩ := sep_split a b _ _ hxa hyb h'
          have hxs : ∀ s ∈ a' :: as', '|' ∉ s := fun s hs => hx s (List.mem_cons_of_mem a hs)
          have hys : ∀ s ∈ b' :: bs', '|' ∉ s := fun s hs => hy s (List.mem_cons_of_mem b hs)
          have := ih (b' :: bs') hxs hys (by simp) (by simp) hjoin
          rw [hab, this]

/-- `joinValues` is injective on non-empty rows of separator-free values. -/
theorem joinValues_inj (r1 r2 : List String)
    (h1 : ∀ v ∈ r1, '|' ∉ v.data) (h2 : ∀ v ∈ r2, '|' ∉ v.data)
    (hne1 : r1 ≠ []) (hne2 : r2 ≠ [])
    (h : joinValues r1 = joinValues r2) : r1 = r2 := by
  have hd := congrArg String.data h
  rw [joinValues_data, joinValues_data] at hd
  have hmap : r1.map String.data = r2.map String.data := by
    refine charJoin_inj _ _ ?_ ?_ (by simpa using hne1) (by simpa using hne2) hd
    · intro s hs
      obtain ⟨v, hv, rfl⟩ := List.mem_map.mp hs
      exact h1 v hv
    · intro s hs
      obtain ⟨v, hv, rfl⟩ := List.mem_map.mp hs
      exact h2 v hv
  have hinj : Function.Injective String.data := by
    intro a b hab
    cases a
    cases b
    exact congrArg String.mk hab
  exact List.map_injective_iff.mpr hinj hmap

/-- C9, counterexample: permuting a row's values does not always change the
hash.  The rows `["a|a", "a"]` and `["a", "a|a"]` are distinct permutations
of one another, yet their joined serializations — and therefore their
`generate_unique_id` under any digest — coincide, because a value may itself
contain the join separator. -/
theorem c9_counterexample :
    generate_unique_id (fun s => s) ["a|a", "a"] = generate_unique_id (fun s => s) ["a", "a|a"] ∧
    (["a|a", "a"] : List String) ≠ ["a", "a|a"] ∧
    (["a|a", "a"] : List String).Perm ["a", "a|a"] := by
  refine ⟨rfl, by decide, by decide⟩

/-- C9, amended: `generate_unique_id` is a deterministic function of the
row's value sequence (byte-identical rows and structurally identical rows
give the same hash under any digest), and permuting the values of a row
changes the digest input — hence the hash whenever the digest does not
collide — provided the permutation actually reorders the sequence and no
value contains the join separator `|`. -/
theorem c9_amended :
    (∀ (md5 : String → String) (r1 r2 : List String), r1 = r2 →
      generate_unique_id md5 r1 = generate_unique_id md5 r2) ∧
    (∀ (r1 r2 : List String), r1.Perm r2 → r1 ≠ r2 →
      (∀ v ∈ r1, '|' ∉ v.data) → joinValues r1 ≠ joinValues r2) := by
  constructor
  · intro md5 r1 r2 h
    rw [h]
  · intro r1 r2 hperm hne hfree hjoin
    have hfree2 : ∀ v ∈ r2, '|' ∉ v.data := fun v hv => hfree v (hperm.mem_iff.mpr hv)
    have hne1 : r1 ≠ [] := by
      intro h0
      subst h0
      exact hne (hperm.symm.eq_nil).symm
    have hne2 : r2 ≠ [] := by
      intro h0
      subst h0
      exact hne hperm.eq_nil
    exact hne (joinValues_inj r1 r2 hfree hfree2 hne1 hne2 hjoin)

/-- Witness for `c9_amended`: determinism at a concrete row, and a concrete
separator-free permutation changing the digest input. -/
theorem c9_witness :
    generate_unique_id (fun s => s) ["p", "q"] = generate_unique_id (fun s => s) ["p", "q"] ∧
    joinValues ["p", "q"] ≠ joinValues ["q", "p"] :=
  ⟨c9_amended.1 (fun s => s) ["p", "q"] ["p", "q"] rfl,
   c9_amended.2 ["p", "q"] ["q", "p"] (by decide) (by decide) (by decide)⟩

/-!  Claim about the Seismic Expander. -/

/-- A concrete GeoJSON feature with string-encoded coordinates. -/
def usgsFeatureC1 : Json :=
  Json.obj [("properties", Json.obj [("mag", Json.num 5 0), ("place", Json.str "EC")]),
            ("geometry", Json.obj [("coordinates", Json.str "[-80.1,-2.2,10]")]),
            ("type", Json.str "Feature"),
            ("id", Json.str "us123")]

/-- C1: a feature whose `geometry.coordinates` is the JSON-encoded string
`"[-80.1,-2.2,10]"` is expanded exactly as one carrying the native array
`[-80.1, -2.2, 10]` — for every digest, properties object, extra geometry
fields, type and id — and the emitted flat record's `geometry.coordinates`
is the decoded numeric array (longitude `-80.1`, latitude `-2.2`, depth
`10`), both per feature and through the feed-level seismic expander. -/
theorem c1_seismic_string_coords :
    (∀ (md5 : String → String) (fuente fecha : String)
       (pkvs gkvs : List (String × Json)) (ty idf : Json),
      expand_usgs_feature md5
        (Json.obj [("properties", Json.obj pkvs),
                   ("geometry", Json.obj (("coordinates", Json.str "[-80.1,-2.2,10]") :: gkvs)),
                   ("type", ty), ("id", idf)]) fuente fecha
      = expand_usgs_feature md5
        (Json.obj [("properties", Json.obj pkvs),
                   ("geometry", Json.obj (("coordinates",
                      Json.arr [Json.num (-801) 1, Json.num (-22) 1, Json.num 10 0]) :: gkvs)),
                   ("type", ty), ("id", idf)]) fuente fecha) ∧
    (expand_usgs_feature (fun s => s) usgsFeatureC1 "f" "d").map
        (fun r => List.lookup "geometry.coordinates" r)
      = Except.ok (some (Json.arr [Json.num (-801) 1, Json.num (-22) 1, Json.num 10 0])) ∧
    (expand_sismos_list (fun s => s) (Json.obj [("features", Json.arr [usgsFeatureC1])]) "f" "d").map
        (fun l => l.map (fun r => List.lookup "geometry.coordinates" r))
      = Except.ok [some (Json.arr [Json.num (-801) 1, Json.num (-22) 1, Json.num 10 0])] := by
  refine ⟨?_, rfl, rfl⟩
  intro md5 fuente fecha pkvs gkvs ty idf
  rfl

/-!  Claim about the Weather Expander. -/

/-- C3, counterexample: a weather document whose hourly `time` and
`temperature_2m` are native arrays of equal length 0 yields one fallback
record, not 0 records — Python's `or` treats the empty list as absent, so
the expansion branch is never reached for native empty arrays. -/
theorem c3_counterexample :
    (expand_clima (fun s => s)
        (Json.obj [("hourly", Json.obj [("time", Json.arr []), ("temperature_2m", Json.arr [])])])
        "f" "d" "b").map List.length = Except.ok 1 ∧
    ensure_list_of_same_length (some (Json.arr [])) (some (Json.arr [])) = true := by
  refine ⟨rfl, rfl⟩

/-- C3, amended: for a dict document whose hourly block yields `time` and
`temperature_2m` lists through the code's own coercion — a truthy native
array (i.e. non-empty) or a truthy JSON-encoded string that parses to an
array, of any length including 0 — equal coerced lengths `n` give exactly
`n` records, record `i` pairing `time[i]` with `temperature_2m[i]` and
carrying the top-level latitude/longitude (see `climaRow`), while unequal
lengths give exactly one fallback record holding the flattened top-level
object; and whenever the time field coerces to no list at all (absent,
falsy — in particular a native *empty* array, the one divergence from the
original claim — or an unparsable string), exactly one fallback record is
emitted. -/
theorem c3_amended :
    (∀ (md5 : String → String) (kvs hkvs : List (String × Json)) (ts ps : List Json)
       (fuente fecha id_base : String),
      List.lookup "hourly" kvs = some (Json.obj hkvs) →
      coerceList (pyOrJ (jlookup hkvs "time") (jlookup kvs "hourly.time"))
        = some (Json.arr ts) →
      coerceList (pyOrJ (jlookup hkvs "temperature_2m") (jlookup hkvs "hourly.temperature_2m"))
        = some (Json.arr ps) →
      (ts.length = ps.length →
        expand_clima md5 (Json.obj kvs) fuente fecha id_base =
          Except.ok ((ts.zip ps).map (climaRow md5 fuente fecha id_base kvs)) ∧
        ((ts.zip ps).map (climaRow md5 fuente fecha id_base kvs)).length = ts.length) ∧
      (ts.length ≠ ps.length →
        expand_clima md5 (Json.obj kvs) fuente fecha id_base =
          Except.ok [climaFallback md5 fuente fecha id_base kvs])) ∧
    (∀ (md5 : String → String) (kvs hkvs : List (String × Json))
       (fuente fecha id_base : String),
      List.lookup "hourly" kvs = some (Json.obj hkvs) →
      coerceList (pyOrJ (jlookup hkvs "time") (jlookup kvs "hourly.time")) = none →
      expand_clima md5 (Json.obj kvs) fuente fecha id_base =
        Except.ok [climaFallback md5 fuente fecha id_base kvs]) := by
  constructor
  · intro md5 kvs hkvs ts ps fuente fecha id_base hh htl hpl
    constructor
    · intro hlen
      refine ⟨?_, ?_⟩
      · simp [expand_clima, hh, expandClimaCore, htl, hpl, hlen]
      · simp [List.length_zip, hlen]
    · intro hlen
      simp [expand_clima, hh, expandClimaCore, htl, hpl, hlen]
  · intro md5 kvs hkvs fuente fecha id_base hh htl
    simp [expand_clima, hh, expandClimaCore, htl]

/-- Witness for `c3_amended`: the spec's native equal-length vector gives
the two paired records; the same series JSON-encoded as strings gives the
same two paired records; string-encoded empty arrays give exactly 0
records; mismatched lengths give exactly one fallback record. -/
theorem c3_witness :
    expand_clima (fun s => s)
        (Json.obj [("hourly", Json.obj [("time", Json.arr [Json.str "t0", Json.str "t1"]),
                                        ("temperature_2m", Json.arr [Json.num 10 0, Json.num 11 0])]),
                   ("latitude", Json.num 1 0), ("longitude", Json.num 2 0)])
        "f" "d" "b" =
      Except.ok (([(Json.str "t0", Json.num 10 0), (Json.str "t1", Json.num 11 0)]).map
        (climaRow (fun s => s) "f" "d" "b"
          [("hourly", Json.obj [("time", Json.arr [Json.str "t0", Json.str "t1"]),
                                ("temperature_2m", Json.arr [Json.num 10 0, Json.num 11 0])]),
           ("latitude", Json.num 1 0), ("longitude", Json.num 2 0)])) ∧
    expand_clima (fun s => s)
        (Json.obj [("hourly", Json.obj [("time", Json.str "[\"t0\", \"t1\"]"),
                                        ("temperature_2m", Json.str "[10, 11]")]),
                   ("latitude", Json.num 1 0), ("longitude", Json.num 2 0)])
        "f" "d" "b" =
      Except.ok (([(Json.str "t0", Json.num 10 0), (Json.str "t1", Json.num 11 0)]).map
        (climaRow (fun s => s) "f" "d" "b"
          [("hourly", Json.obj [("time", Json.str "[\"t0\", \"t1\"]"),
                                ("temperature_2m", Json.str "[10, 11]")]),
           ("latitude", Json.num 1 0), ("longitude", Json.num 2 0)])) ∧
    (expand_clima (fun s => s)
        (Json.obj [("hourly", Json.obj [("time", Json.str "[]"),
                                        ("temperature_2m", Json.str "[]")])])
        "f" "d" "b").map List.length = Except.ok 0 ∧
    (expand_clima (fun s => s)
        (Json.obj [("hourly", Json.obj [("time", Json.arr [Json.str "t0"]),
                                        ("temperature_2m", Json.arr [Json.num 10 0, Json.num 11 0])])])
        "f" "d" "b").map List.length = Except.ok 1 := by
  refine ⟨?_, ?_, ?_, ?_⟩
  · exact (c3_amended.1 (fun s => s)
      [("hourly", Json.obj [("time", Json.arr [Json.str "t0", Json.str "t1"]),
                            ("temperature_2m", Json.arr [Json.num 10 0, Json.num 11 0])]),
       ("latitude", Json.num 1 0), ("longitude", Json.num 2 0)]
      [("time", Json.arr [Json.str "t0", Json.str "t1"]),
       ("temperature_2m", Json.arr [Json.num 10 0, Json.num 11 0])]
      [Json.str "t0", Json.str "t1"] [Json.num 10 0, Json.num 11 0]
      "f" "d" "b" rfl rfl rfl |>.1 rfl).1
  · exact (c3_amended.1 (fun s => s)
      [("hourly", Json.obj [("time", Json.str "[\"t0\", \"t1\"]"),
                            ("temperature_2m", Json.str "[10, 11]")]),
       ("latitude", Json.num 1 0), ("longitude", Json.num 2 0)]
      [("time", Json.str "[\"t0\", \"t1\"]"),
       ("temperature_2m", Json.str "[10, 11]")]
      [Json.str "t0", Json.str "t1"] [Json.num 10 0, Json.num 11 0]
      "f" "d" "b" rfl rfl rfl |>.1 rfl).1
  · rw [(c3_amended.1 (fun s => s)
      [("hourly", Json.obj [("time", Json.str "[]"), ("temperature_2m", Json.str "[]")])]
      [("time", Json.str "[]"), ("temperature_2m", Json.str "[]")]
      [] [] "f" "d" "b" rfl rfl rfl |>.1 rfl).1]
    rfl
  · rw [(c3_amended.1 (fun s => s)
      [("hourly", Json.obj [("time", Json.arr [Json.str "t0"]),
                            ("temperature_2m", Json.arr [Json.num 10 0, Json.num 11 0])])]
      [("time", Json.arr [Json.str "t0"]),
       ("temperature_2m", Json.arr [Json.num 10 0, Json.num 11 0])]
      [Json.str "t0"] [Json.num 10 0, Json.num 11 0]
      "f" "d" "b" rfl rfl rfl |>.2 (by decide))]
    rfl

/-!  Claim about the Procurement Expander. -/

/-- C4: a release with exactly one award containing exactly two items yields
exactly one release-level record and exactly two item-level records; all
three carry the same release identifier `sercopReleaseId`, which is the
explicit `id` when truthy, else the explicit `ocid` when truthy, else the
content hash, in that priority order. -/
theorem c4_release_two_items (md5 : String → String) (fuente fecha : String)
    (rkvs akvs i1 i2 : List (String × Json))
    (ha : List.lookup "awards" rkvs = some (Json.arr [Json.obj akvs]))
    (hi : List.lookup "items" akvs = some (Json.arr [Json.obj i1, Json.obj i2])) :
    expand_sercop_releases md5 (Json.obj [("releases", Json.arr [Json.obj rkvs])]) fuente fecha
      = Except.ok
        [(RecKind.release, release_base_record md5 fuente fecha rkvs, Json.obj rkvs),
         (RecKind.item, item_record md5 fuente fecha (sercopReleaseId md5 rkvs)
            (award_id_of md5 akvs) i1, Json.obj i1),
         (RecKind.item, item_record md5 fuente fecha (sercopReleaseId md5 rkvs)
            (award_id_of md5 akvs) i2, Json.obj i2)] ∧
    (List.lookup "release_id" (release_base_record md5 fuente fecha rkvs)
        = some (sercopReleaseId md5 rkvs) ∧
     List.lookup "release_id" (item_record md5 fuente fecha (sercopReleaseId md5 rkvs)
        (award_id_of md5 akvs) i1) = some (sercopReleaseId md5 rkvs) ∧
     List.lookup "release_id" (item_record md5 fuente fecha (sercopReleaseId md5 rkvs)
        (award_id_of md5 akvs) i2) = some (sercopReleaseId md5 rkvs)) ∧
    (truthy (jlookup rkvs "id") = true →
      sercopReleaseId md5 rkvs = jlookup rkvs "id") ∧
    (truthy (jlookup rkvs "id") = false → truthy (jlookup rkvs "ocid") = true →
      sercopReleaseId md5 rkvs = jlookup rkvs "ocid") ∧
    (truthy (jlookup rkvs "id") = false → truthy (jlookup rkvs "ocid") = false →
      sercopReleaseId md5 rkvs = Json.str (md5 (dumpJson true (Json.obj rkvs)))) := by
  have hjl_items : jlookup akvs "items" = Json.arr [Json.obj i1, Json.obj i2] := by
    simp [jlookup, hi]
  have haw : expand_award md5 fuente fecha (sercopReleaseId md5 rkvs) (Json.obj akvs)
      = Except.ok
        [(RecKind.item, item_record md5 fuente fecha (sercopReleaseId md5 rkvs)
            (award_id_of md5 akvs) i1, Json.obj i1),
         (RecKind.item, item_record md5 fuente fecha (sercopReleaseId md5 rkvs)
            (award_id_of md5 akvs) i2, Json.obj i2)] := by
    simp only [expand_award]
    rw [hjl_items]
    rfl
  have hjl_aw : jlookup rkvs "awards" = Json.arr [Json.obj akvs] := by
    simp [jlookup, ha]
  have hone : expand_one_release md5 fuente fecha (Json.obj rkvs)
      = Except.ok
        [(RecKind.release, release_base_record md5 fuente fecha rkvs, Json.obj rkvs),
         (RecKind.item, item_record md5 fuente fecha (sercopReleaseId md5 rkvs)
            (award_id_of md5 akvs) i1, Json.obj i1),
         (RecKind.item, item_record md5 fuente fecha (sercopReleaseId md5 rkvs)
            (award_id_of md5 akvs) i2, Json.obj i2)] := by
    simp only [expand_one_release]
    rw [hjl_aw]
    show (List.mapM (expand_award md5 fuente fecha (sercopReleaseId md5 rkvs))
        [Json.obj akvs]).map _ = _
    rw [List.mapM_cons, haw]
    rfl
  refine ⟨?_, ⟨rfl, rfl, rfl⟩, ?_, ?_, ?_⟩
  · show (List.mapM (expand_one_release md5 fuente fecha) [Json.obj rkvs]).map List.flatten = _
    rw [List.mapM_cons, hone]
    rfl
  · intro h
    simp [sercopReleaseId, pyOrJ, h]
  · intro h1 h2
    simp [sercopReleaseId, pyOrJ, h1, h2]
  · intro h1 h2
    simp [sercopReleaseId, pyOrJ, h1, h2]

/-- Witness for `c4_release_two_items` at a concrete release. -/
theorem c4_witness :
    expand_sercop_releases (fun s => s)
      (Json.obj [("releases", Json.arr [Json.obj
        [("id", Json.str "R1"),
         ("awards", Json.arr [Json.obj
           [("id", Json.str "A1"),
            ("items", Json.arr [Json.obj [("id", Json.str "I1")],
                                Json.obj [("id", Json.str "I2")]])]])]])]) "f" "d"
      = Except.ok
        [(RecKind.release, release_base_record (fun s => s) "f" "d"
            [("id", Json.str "R1"),
             ("awards", Json.arr [Json.obj
               [("id", Json.str "A1"),
                ("items", Json.arr [Json.obj [("id", Json.str "I1")],
                                    Json.obj [("id", Json.str "I2")]])]])],
          Json.obj [("id", Json.str "R1"),
             ("awards", Json.arr [Json.obj
               [("id", Json.str "A1"),
                ("items", Json.arr [Json.obj [("id", Json.str "I1")],
                                    Json.obj [("id", Json.str "I2")]])]])]),
         (RecKind.item, item_record (fun s => s) "f" "d"
            (sercopReleaseId (fun s => s)
              [("id", Json.str "R1"),
               ("awards", Json.arr [Json.obj
                 [("id", Json.str "A1"),
                  ("items", Json.arr [Json.obj [("id", Json.str "I1")],
                                      Json.obj [("id", Json.str "I2")]])]])])
            (award_id_of (fun s => s)
              [("id", Json.str "A1"),
               ("items", Json.arr [Json.obj [("id", Json.str "I1")],
                                   Json.obj [("id", Json.str "I2")]])])
            [("id", Json.str "I1")], Json.obj [("id", Json.str "I1")]),
         (RecKind.item, item_record (fun s => s) "f" "d"
            (sercopReleaseId (fun s => s)
              [("id", Json.str "R1"),
               ("awards", Json.arr [Json.obj
                 [("id", Json.str "A1"),
                  ("items", Json.arr [Json.obj [("id", Json.str "I1")],
                                      Json.obj [("id", Json.str "I2")]])]])])
            (award_id_of (fun s => s)
              [("id", Json.str "A1"),
               ("items", Json.arr [Json.obj [("id", Json.str "I1")],
                                   Json.obj [("id", Json.str "I2")]])])
            [("id", Json.str "I2")], Json.obj [("id", Json.str "I2")]
         )] ∧
    sercopReleaseId (fun s => s)
      [("id", Json.str "R1"),
       ("awards", Json.arr [Json.obj
         [("id", Json.str "A1"),
          ("items", Json.arr [Json.obj [("id", Json.str "I1")],
                              Json.obj [("id", Json.str "I2")]])]])] = Json.str "R1" := by
  have h := c4_release_two_items (fun s => s) "f" "d"
    [("id", Json.str "R1"),
     ("awards", Json.arr [Json.obj
       [("id", Json.str "A1"),
        ("items", Json.arr [Json.obj [("id", Json.str "I1")],
                            Json.obj [("id", Json.str "I2")]])]])]
    [("id", Json.str "A1"),
     ("items", Json.arr [Json.obj [("id", Json.str "I1")], Json.obj [("id", Json.str "I2")]])]
    [("id", Json.str "I1")] [("id", Json.str "I2")] rfl rfl
  exact ⟨h.1, h.2.2.1 rfl⟩

/-!  Implicit claim: a dict document without a `releases` field is treated as
a single already-unwrapped release. -/

/-- Dict check used by the shape predicate. -/
def isObjB : Json → Bool
  | Json.obj _ => true
  | _ => false

/-- The shape of one award as the generator requires it: a dict whose
`items`, after the `or []` coercion, is a list of dicts. -/
def awardShapeB : Json → Bool
  | Json.obj akvs =>
      (match pyOrJ (jlookup akvs "items") (Json.arr []) with
       | Json.arr its => its.all isObjB
       | _ => false)
  | _ => false

/-- The shape of a release whose awards/items nesting lets the generator run
to completion: `awards`, after the `or []` coercion, is a list of awards of
the required shape. -/
def awardsShapeOK : Json → Bool
  | Json.obj rkvs =>
      (match pyOrJ (jlookup rkvs "awards") (Json.arr []) with
       | Json.arr aws => aws.all awardShapeB
       | _ => false)
  | _ => false

theorem expand_items_ok (md5 : String → String) (fuente fecha : String)
    (rid aid : Json) (its : List Json)
    (h : its.all isObjB = true) :
    ∃ l, List.mapM (expand_item md5 fuente fecha rid aid) its = Except.ok l ∧
      ∀ t ∈ l, t.1 = RecKind.item := by
  induction its with
  | nil => exact ⟨[], rfl, by simp⟩
  | cons it rest ih =>
    rw [List.all_cons, Bool.and_eq_true] at h
    obtain ⟨h1, h2⟩ := h
    obtain ⟨l, hl, htag⟩ := ih h2
    cases it with
    | obj ikvs =>
        refine ⟨(RecKind.item, item_record md5 fuente fecha rid aid ikvs, Json.obj ikvs) :: l,
          ?_, ?_⟩
        · rw [List.mapM_cons, hl]
          rfl
        · intro t ht
          rcases List.mem_cons.mp ht with h | h
          · rw [h]
          · exact htag t h
    | null => simp [isObjB] at h1
    | bool b => simp [isObjB] at h1
    | num n e => simp [isObjB] at h1
    | str s => simp [isObjB] at h1
    | arr xs => simp [isObjB] at h1

theorem expand_awards_ok (md5 : String → String) (fuente fecha : String)
    (rid : Json) (aws : List Json)
    (h : aws.all awardShapeB = true) :
    ∃ ls, List.mapM (expand_award md5 fuente fecha rid) aws = Except.ok ls ∧
      ∀ l ∈ ls, ∀ t ∈ l, t.1 = RecKind.item := by
  induction aws with
  | nil => exact ⟨[], rfl, by simp⟩
  | cons aw rest ih =>
    rw [List.all_cons, Bool.and_eq_true] at h
    obtain ⟨h1, h2⟩ := h
    obtain ⟨ls, hls, htag⟩ := ih h2
    cases aw with
    | obj akvs =>
        cases hits : pyOrJ (jlookup akvs "items") (Json.arr []) with
        | null => simp [awardShapeB, hits] at h1
        | bool b => simp [awardShapeB, hits] at h1
        | num n e => simp [awardShapeB, hits] at h1
        | str s => simp [awardShapeB, hits] at h1
        | obj okvs => simp [awardShapeB, hits] at h1
        | arr its =>
        simp only [awardShapeB, hits] at h1
        obtain ⟨l, hl, hltag⟩ := expand_items_ok md5 fuente fecha rid (award_id_of md5 akvs) its h1
        refine ⟨l :: ls, ?_, ?_⟩
        · rw [List.mapM_cons]
          have haw : expand_award md5 fuente fecha rid (Json.obj akvs) = Except.ok l := by
            simp only [expand_award]
            rw [hits]
            exact hl
          rw [haw, hls]
          rfl
        · intro l' hl'
          rcases List.mem_cons.mp hl' with h | h
          · rw [h]; exact hltag
          · exact htag l' h
    | null => simp [awardShapeB] at h1
    | bool b => simp [awardShapeB] at h1
    | num n e => simp [awardShapeB] at h1
    | str s => simp [awardShapeB] at h1
    | arr xs => simp [awardShapeB] at h1

theorem expand_one_release_ok (md5 : String → String) (fuente fecha : String)
    (rkvs : List (String × Json))
    (h : awardsShapeOK (Json.obj rkvs) = true) :
    ∃ l, expand_one_release md5 fuente fecha (Json.obj rkvs)
        = Except.ok ((RecKind.release, release_base_record md5 fuente fecha rkvs,
            Json.obj rkvs) :: l) ∧
      ∀ t ∈ l, t.1 = RecKind.item := by
  cases haws : pyOrJ (jlookup rkvs "awards") (Json.arr []) with
  | null => simp [awardsShapeOK, haws] at h
  | bool b => simp [awardsShapeOK, haws] at h
  | num n e => simp [awardsShapeOK, haws] at h
  | str s => simp [awardsShapeOK, haws] at h
  | obj okvs => simp [awardsShapeOK, haws] at h
  | arr aws =>
  simp only [awardsShapeOK, haws] at h
  obtain ⟨ls, hls, htag⟩ := expand_awards_ok md5 fuente fecha (sercopReleaseId md5 rkvs) aws h
  refine ⟨ls.flatten, ?_, ?_⟩
  · simp only [expand_one_release]
    rw [haws]
    show Except.map _ (List.mapM (expand_award md5 fuente fecha (sercopReleaseId md5 rkvs)) aws)
      = _
    rw [hls]
    rfl
  · intro t ht
    obtain ⟨l, hlmem, htmem⟩ := List.mem_flatten.mp ht
    exact htag l hlmem t htmem

/-- C10: a dict document with no `releases` field (and well-formed nested
awards/items) is treated as the single already-unwrapped release `[obj]`:
the expander succeeds, emits exactly one release-level record, and that
record is the head of the output and carries the whole document as its
release payload. -/
theorem c10_no_releases_field (md5 : String → String) (kvs : List (String × Json))
    (fuente fecha : String)
    (hno : List.lookup "releases" kvs = none)
    (hshape : awardsShapeOK (Json.obj kvs) = true) :
    (expand_sercop_releases md5 (Json.obj kvs) fuente fecha).map
        (fun l => (l.filter (fun t => t.1 = RecKind.release)).length) = Except.ok 1 ∧
    (expand_sercop_releases md5 (Json.obj kvs) fuente fecha).map
        (fun l => l.head?.map (fun t => (t.1, t.2.2)))
      = Except.ok (some (RecKind.release, Json.obj kvs)) := by
  obtain ⟨l, hl, htag⟩ := expand_one_release_ok md5 fuente fecha kvs hshape
  have hjl : jlookup kvs "releases" = Json.null := by simp [jlookup, hno]
  have hmain : expand_sercop_releases md5 (Json.obj kvs) fuente fecha
      = Except.ok ((RecKind.release, release_base_record md5 fuente fecha kvs,
          Json.obj kvs) :: l) := by
    simp only [expand_sercop_releases]
    rw [hjl]
    show (List.mapM (expand_one_release md5 fuente fecha) [Json.obj kvs]).map List.flatten
        = _
    rw [List.mapM_cons, hl]
    simp [Except.bind, Except.map, List.mapM.loop]
  have hfilter : l.filter (fun t => t.1 = RecKind.release) = [] := by
    rw [List.filter_eq_nil_iff]
    intro t ht
    simp [htag t ht]
  constructor
  · rw [hmain]
    simp only [Except.map, List.filter_cons]
    simp [hfilter]
  · rw [hmain]
    rfl

/-- Witness for `c10_no_releases_field` at a concrete dict without
`releases`. -/
theorem c10_witness :
    (expand_sercop_releases (fun s => s)
        (Json.obj [("ocid", Json.str "O1"),
                   ("awards", Json.arr [Json.obj [("items", Json.arr [Json.obj []])]])])
        "f" "d").map
        (fun l => (l.filter (fun t => t.1 = RecKind.release)).length) = Except.ok 1 ∧
    (expand_sercop_releases (fun s => s)
        (Json.obj [("ocid", Json.str "O1"),
                   ("awards", Json.arr [Json.obj [("items", Json.arr [Json.obj []])]])])
        "f" "d").map
        (fun l => l.head?.map (fun t => (t.1, t.2.2)))
      = Except.ok (some (RecKind.release,
          Json.obj [("ocid", Json.str "O1"),
                    ("awards", Json.arr [Json.obj [("items", Json.arr [Json.obj []])]])])) :=
  c10_no_releases_field (fun s => s)
    [("ocid", Json.str "O1"),
     ("awards", Json.arr [Json.obj [("items", Json.arr [Json.obj []])]])]
    "f" "d" rfl rfl

/-!  Claim about the Column Sanitizer: the output shape invariant and
idempotence of `clean_bq_column`. -/

/-- No two adjacent underscores (the post-collapse invariant). -/
def noDouble : List Char → Bool
  | [] => true
  | a :: t =>
      match t with
      | [] => true
      | b :: _ => !(a = '_' && b = '_') && noDouble t

theorem keep_char_cases (c : Char) (h : keepChar c = true) :
    isLowerAlpha c = true ∨ isDigitC c = true ∨ c = '_' := by
  rcases Bool.or_eq_true_iff.mp h with h1 | h2
  · rcases Bool.or_eq_true_iff.mp h1 with h3 | h4
    · exact Or.inl h3
    · exact Or.inr (Or.inl h4)
  · exact Or.inr (Or.inr (by simpa using h2))

theorem keep_toNat (c : Char) (h : keepChar c = true) :
    (97 ≤ c.toNat ∧ c.toNat ≤ 122) ∨ (48 ≤ c.toNat ∧ c.toNat ≤ 57) ∨ c.toNat = 95 := by
  rcases keep_char_cases c h with h | h | h
  · exact Or.inl (by
      rw [isLowerAlpha, Bool.and_eq_true, decide_eq_true_eq, decide_eq_true_eq] at h
      exact h)
  · exact Or.inr (Or.inl (by
      rw [isDigitC, Bool.and_eq_true, decide_eq_true_eq, decide_eq_true_eq] at h
      exact h))
  · exact Or.inr (Or.inr (by rw [h]; rfl))

theorem keep_not_upper (c : Char) (h : keepChar c = true) :
    ¬(65 ≤ c.toNat ∧ c.toNat ≤ 90) := by
  rcases keep_toNat c h with ⟨h1, h2⟩ | ⟨h1, h2⟩ | h1 <;> omega

theorem keep_toLower_fix (c : Char) (h : keepChar c = true) : Char.toLower c = c := by
  rw [Char.toLower, if_neg]
  intro hcon
  exact keep_not_upper c h ⟨hcon.1, hcon.2⟩

theorem keep_not_ws (c : Char) (h : keepChar c = true) : Char.isWhitespace c = false := by
  have ht := keep_toNat c h
  have h32 : c ≠ ' ' := by intro hc; subst hc; revert ht; decide
  have h9 : c ≠ '\t' := by intro hc; subst hc; revert ht; decide
  have h13 : c ≠ '\x0d' := by intro hc; subst hc; revert ht; decide
  have h10 : c ≠ '\n' := by intro hc; subst hc; revert ht; decide
  simp [Char.isWhitespace, h32, h9, h13, h10]

theorem keep_not_bom (c : Char) (h : keepChar c = true) : c ≠ Char.ofNat 65279 := by
  have ht := keep_toNat c h
  intro hc
  subst hc
  revert ht
  decide

/-- The characters the `replacements` pass touches are all outside the kept
class, so a kept-only list is a fixpoint of `replaceChars`. -/
theorem replaceChars_fix (l : List Char) (h : ∀ c ∈ l, keepChar c = true) :
    replaceChars l = l := by
  induction l with
  | nil => rfl
  | cons c t ih =>
    have hc := h c (List.mem_cons_self c t)
    have ht := keep_toNat c hc
    have hrep : ¬(c = '.' ∨ c = ';' ∨ c = ' ' ∨ c = '-' ∨ c = '/' ∨ c = ',') := by
      rintro (rfl | rfl | rfl | rfl | rfl | rfl) <;> revert ht <;> decide
    have hdel : ¬(c = '(' ∨ c = ')' ∨ c = '"' ∨ c = singleQuote) := by
      rintro (rfl | rfl | rfl | rfl) <;> revert ht <;> decide
    rw [replaceChars, if_neg hrep, if_neg hdel, ih (fun d hd => h d (List.mem_cons_of_mem c hd))]

theorem map_id_of_fix {α : Type} (f : α → α) (l : List α) (h : ∀ c ∈ l, f c = c) :
    l.map f = l := by
  induction l with
  | nil => rfl
  | cons c t ih =>
    rw [List.map_cons, h c (List.mem_cons_self c t),
      ih (fun d hd => h d (List.mem_cons_of_mem c hd))]

theorem dropWhile_fix {q : Char → Bool} {l : List Char} (h : ∀ c ∈ l, q c = false) :
    l.dropWhile q = l := by
  cases l with
  | nil => rfl
  | cons c t => rw [List.dropWhile_cons, if_neg (by simp [h c (List.mem_cons_self c t)])]

/-- Both-ends strip is the identity on a list with no character satisfying
the strip predicate. -/
theorem strip_fix {q : Char → Bool} {l : List Char} (h : ∀ c ∈ l, q c = false) :
    ((l.dropWhile q).reverse.dropWhile q).reverse = l := by
  rw [dropWhile_fix h, dropWhile_fix (fun c hc => h c (List.mem_reverse.mp hc)),
    List.reverse_reverse]

/-- The head of `squeezeUnderscores (b :: t)` is `b`, and the result is
non-empty. -/
theorem squeeze_cons (t : List Char) : ∀ b, ∃ t', squeezeUnderscores (b :: t) = b :: t' := by
  induction t with
  | nil => exact fun b => ⟨[], rfl⟩
  | cons c t' ih =>
    intro b
    by_cases hb : b = '_' ∧ c = '_'
    · obtain ⟨t'', ht''⟩ := ih c
      exact ⟨t'', by rw [squeezeUnderscores, if_pos (by simp [hb.1, hb.2]), ht'', hb.1, hb.2]⟩
    · refine ⟨squeezeUnderscores (c :: t'), ?_⟩
      rw [squeezeUnderscores, if_neg (by simpa using fun h1 h2 => hb ⟨h1, h2⟩)]

theorem squeeze_mem {c : Char} {l : List Char} (h : c ∈ squeezeUnderscores l) : c ∈ l := by
  induction l with
  | nil => simpa [squeezeUnderscores] using h
  | cons a t ih =>
    cases t with
    | nil => simpa [squeezeUnderscores] using h
    | cons b t' =>
      rw [squeezeUnderscores] at h
      by_cases hab : a = '_' && b = '_'
      · rw [if_pos hab] at h
        exact List.mem_cons_of_mem a (ih h)
      · rw [if_neg hab] at h
        rcases List.mem_cons.mp h with h | h
        · exact h ▸ List.mem_cons_self a (b :: t')
        · exact List.mem_cons_of_mem a (ih h)

theorem noDouble_squeeze (l : List Char) : noDouble (squeezeUnderscores l) = true := by
  induction l with
  | nil => rfl
  | cons a t ih =>
    cases t with
    | nil => rfl
    | cons b t' =>
      rw [squeezeUnderscores]
      by_cases hab : a = '_' && b = '_'
      · rw [if_pos hab]
        exact ih
      · rw [if_neg hab]
        obtain ⟨t'', ht''⟩ := squeeze_cons t' b
        rw [ht'']
        rw [ht''] at ih
        rw [noDouble, Bool.and_eq_true]
        exact ⟨by simpa using not_and_or.mp (by simpa using hab), ih⟩

theorem squeeze_fix {l : List Char} (h : noDouble l = true) : squeezeUnderscores l = l := by
  induction l with
  | nil => rfl
  | cons a t ih =>
    cases t with
    | nil => rfl
    | cons b t' =>
      rw [noDouble, Bool.and_eq_true] at h
      rw [squeezeUnderscores,
        if_neg (by simpa using not_and_or.mpr (by simpa using h.1)), ih h.2]

theorem noDouble_tail {a : Char} {t : List Char} (h : noDouble (a :: t) = true) :
    noDouble t = true := by
  cases t with
  | nil => rfl
  | cons b t' =>
    rw [noDouble, Bool.and_eq_true] at h
    exact h.2

theorem noDouble_append_left {x y : List Char} (h : noDouble (x ++ y) = true) :
    noDouble x = true := by
  induction x with
  | nil => rfl
  | cons a t ih =>
    cases t with
    | nil => rfl
    | cons b t' =>
      rw [List.cons_append, List.cons_append] at h
      rw [noDouble] at h ⊢
      rw [Bool.and_eq_true] at h
      rw [Bool.and_eq_true]
      exact ⟨h.1, ih h.2⟩

theorem noDouble_append_right {x y : List Char} (h : noDouble (x ++ y) = true) :
    noDouble y = true := by
  induction x with
  | nil => simpa using h
  | cons a t ih =>
    rw [List.cons_append] at h
    exact ih (noDouble_tail h)

theorem noDouble_inside {t l : List Char} (h : t <:+: l) (hl : noDouble l = true) :
    noDouble t = true := by
  obtain ⟨s, u, hsu⟩ := h
  subst hsu
  rw [List.append_assoc] at hl
  exact noDouble_append_left (noDouble_append_right hl)

theorem dropWhile_head_not (q : Char → Bool) (l : List Char) (c : Char)
    (h : (l.dropWhile q).head? = some c) : q c = false := by
  induction l with
  | nil => simp at h
  | cons a t ih =>
    rw [List.dropWhile_cons] at h
    by_cases ha : q a = true
    · rw [if_pos ha] at h
      exact ih h
    · rw [if_neg (by simp [ha])] at h
      simp at h
      rw [← h]
      simpa using ha

/-- `trimUnderscores l` sits inside `l`. -/
theorem trim_inside (l : List Char) : trimUnderscores l <:+: l := by
  rw [trimUnderscores]
  have h1 : (l.dropWhile (fun c => c = '_')) <:+ l := List.dropWhile_suffix _
  have h2 : ((l.dropWhile (fun c => c = '_')).reverse.dropWhile (fun c => c = '_'))
      <:+ (l.dropWhile (fun c => c = '_')).reverse := List.dropWhile_suffix _
  have h3 := h2.reverse
  rw [List.reverse_reverse] at h3
  exact h3.isInfix.trans h1.isInfix

theorem trim_head {l : List Char} {c : Char}
    (h : (trimUnderscores l).head? = some c) : (c = '_') = False := by
  rw [trimUnderscores, List.head?_reverse] at h
  have hsuffix : ((l.dropWhile (fun c => c = '_')).reverse.dropWhile (fun c => c = '_'))
      <:+ (l.dropWhile (fun c => c = '_')).reverse := List.dropWhile_suffix _
  obtain ⟨s, hs⟩ := hsuffix
  have hne : ((l.dropWhile (fun c => c = '_')).reverse.dropWhile (fun c => c = '_')) ≠ [] := by
    intro h0
    rw [h0] at h
    simp at h
  have hlast : ((l.dropWhile (fun c => c = '_')).reverse).getLast? = some c := by
    rw [← hs, List.getLast?_append_of_ne_nil s hne]
    exact h
  rw [List.getLast?_reverse] at hlast
  simpa using dropWhile_head_not _ _ c hlast

theorem trim_last {l : List Char} {c : Char}
    (h : (trimUnderscores l).getLast? = some c) : (c = '_') = False := by
  rw [trimUnderscores, List.getLast?_reverse] at h
  simpa using dropWhile_head_not _ _ c h

/-- The normal form of sanitized column names: non-empty, only kept
characters, no double underscore, lower-alpha head, no trailing
underscore. -/
def NormCols (l : List Char) : Prop :=
  l ≠ [] ∧ (∀ c ∈ l, keepChar c = true) ∧ noDouble l = true ∧
  (∀ c, l.head? = some c → isLowerAlpha c = true) ∧ l.getLast? ≠ some '_'

theorem lower_not_digit {c : Char} (h : isLowerAlpha c = true) : isDigitC c = false := by
  rw [isLowerAlpha, Bool.and_eq_true, decide_eq_true_eq, decide_eq_true_eq] at h
  rw [isDigitC]
  apply Bool.and_eq_false_iff.mpr
  right
  rw [decide_eq_false_iff_not]
  omega

theorem digit_ne_underscore {c : Char} (h : isDigitC c = true) : (c = '_') = False := by
  rw [isDigitC, Bool.and_eq_true, decide_eq_true_eq, decide_eq_true_eq] at h
  simp only [eq_iff_iff, iff_false]
  intro hc
  subst hc
  revert h
  decide

theorem lower_ne_underscore {c : Char} (h : isLowerAlpha c = true) : (c = '_') = False := by
  rw [isLowerAlpha, Bool.and_eq_true, decide_eq_true_eq, decide_eq_true_eq] at h
  simp only [eq_iff_iff, iff_false]
  intro hc
  subst hc
  revert h
  decide

/-- Every output of `finishCols` is in normal form. -/
theorem normCols_finishCols (m : List Char) : NormCols (finishCols m) := by
  rw [finishCols]
  have hkeep5 : ∀ c ∈ m.filter keepChar, keepChar c = true :=
    fun c hc => (List.mem_filter.mp hc).2
  have hkeep6 : ∀ c ∈ squeezeUnderscores (m.filter keepChar), keepChar c = true :=
    fun c hc => hkeep5 c (squeeze_mem hc)
  have hkeep7 : ∀ c ∈ trimUnderscores (squeezeUnderscores (m.filter keepChar)),
      keepChar c = true :=
    fun c hc => hkeep6 c ((trim_inside _).sublist.subset hc)
  have hnd7 : noDouble (trimUnderscores (squeezeUnderscores (m.filter keepChar))) = true :=
    noDouble_inside (trim_inside _) (noDouble_squeeze _)
  cases h7 : (trimUnderscores (squeezeUnderscores (m.filter keepChar))).head? with
  | none =>
    have h7nil : trimUnderscores (squeezeUnderscores (m.filter keepChar)) = [] :=
      List.head?_eq_none_iff.mp h7
    rw [h7nil]
    show NormCols ("unnamed".data)
    refine ⟨by decide, by decide, by decide, ?_, by decide⟩
    intro c hc
    have hu : ("unnamed".data).head? = some 'u' := rfl
    rw [hu] at hc
    cases hc
    decide
  | some c0 =>
    obtain ⟨t7, h7eq⟩ : ∃ t7,
        trimUnderscores (squeezeUnderscores (m.filter keepChar)) = c0 :: t7 := by
      cases hcase : trimUnderscores (squeezeUnderscores (m.filter keepChar)) with
      | nil => rw [hcase] at h7; simp at h7
      | cons d t =>
        rw [hcase] at h7
        simp at h7
        exact ⟨t, by rw [h7]⟩
    have hc0keep : keepChar c0 = true := by
      apply hkeep7
      rw [h7eq]
      exact List.mem_cons_self _ _
    have hc0ne : (c0 = '_') = False := trim_head h7
    have hlast7 : (trimUnderscores (squeezeUnderscores (m.filter keepChar))).getLast?
        ≠ some '_' := by
      intro hcon
      have := trim_last hcon
      simp at this
    rw [h7eq] at hnd7 hlast7
    by_cases hdig : isDigitC c0 = true
    · rw [h7eq]
      show NormCols (if (if isDigitC c0 = true then 'c' :: 'o' :: 'l' :: '_' :: c0 :: t7
          else c0 :: t7).isEmpty = true then "unnamed".data
        else (if isDigitC c0 = true then 'c' :: 'o' :: 'l' :: '_' :: c0 :: t7 else c0 :: t7))
      rw [if_pos hdig]
      have hne8 : (('c' :: 'o' :: 'l' :: '_' :: c0 :: t7).isEmpty = false) := rfl
      rw [hne8]
      simp only [Bool.false_eq_true, if_false]
      refine ⟨by simp, ?_, ?_, ?_, ?_⟩
      · intro c hc
        rcases List.mem_cons.mp hc with rfl | hc
        · decide
        rcases List.mem_cons.mp hc with rfl | hc
        · decide
        rcases List.mem_cons.mp hc with rfl | hc
        · decide
        rcases List.mem_cons.mp hc with rfl | hc
        · decide
        apply hkeep7
        rw [h7eq]
        exact hc
      · have hc0u : ¬(c0 = '_') := by rw [hc0ne]; exact id
        simp only [noDouble, Bool.and_eq_true]
        refine ⟨by decide, by decide, by decide, by simpa using hc0u, hnd7⟩
      · intro c hc
        simp at hc
        rw [← hc]
        decide
      · show (['c', 'o', 'l', '_'] ++ (c0 :: t7)).getLast? ≠ some '_'
        rw [List.getLast?_append_of_ne_nil _ (by simp)]
        exact hlast7
    · rw [h7eq]
      show NormCols (if (if isDigitC c0 = true then 'c' :: 'o' :: 'l' :: '_' :: c0 :: t7
          else c0 :: t7).isEmpty = true then "unnamed".data
        else (if isDigitC c0 = true then 'c' :: 'o' :: 'l' :: '_' :: c0 :: t7 else c0 :: t7))
      rw [if_neg hdig]
      have hne8 : ((c0 :: t7).isEmpty = false) := rfl
      rw [hne8]
      simp only [Bool.false_eq_true, if_false]
      refine ⟨by simp, ?_, hnd7, ?_, hlast7⟩
      · intro c hc
        apply hkeep7
        rw [h7eq]
        exact hc
      · intro c hc
        simp at hc
        rw [← hc]
        rcases keep_char_cases c0 hc0keep with h | h | h
        · exact h
        · exact absurd h hdig
        · rw [h] at hc0ne; simp at hc0ne

/-- `finishCols` is the identity on normal forms. -/
theorem finishCols_fix {o : List Char} (h : NormCols o) : finishCols o = o := by
  obtain ⟨hne, hkeep, hnd, hhead, hlast⟩ := h
  obtain ⟨c0, t, rfl⟩ : ∃ c0 t, o = c0 :: t := by
    cases o with
    | nil => exact absurd rfl hne
    | cons a t => exact ⟨a, t, rfl⟩
  have hc0 : isLowerAlpha c0 = true := hhead c0 rfl
  rw [finishCols]
  rw [List.filter_eq_self.mpr hkeep, squeeze_fix hnd]
  have hc0u : ¬(c0 = '_') := fun hc => by rw [lower_ne_underscore hc0] at hc; exact hc
  have hdw1 : (c0 :: t).dropWhile (fun c => c = '_') = c0 :: t := by
    rw [List.dropWhile_cons, if_neg (by simpa using hc0u)]
  obtain ⟨d, srev, hds⟩ : ∃ d s, (c0 :: t).reverse = d :: s := by
    cases hr : (c0 :: t).reverse with
    | nil =>
      have hlen : (c0 :: t).length = 0 := by rw [← List.length_reverse, hr]; rfl
      simp at hlen
    | cons d s => exact ⟨d, s, rfl⟩
  have hd : (c0 :: t).getLast? = some d := by
    rw [← List.head?_reverse, hds]
    rfl
  have hdne : ¬(d = '_') := fun hdd => hlast (by rw [hd, hdd])
  have hdw2 : ((c0 :: t).reverse).dropWhile (fun c => c = '_') = (c0 :: t).reverse := by
    rw [hds, List.dropWhile_cons, if_neg (by simpa using hdne)]
  rw [trimUnderscores, hdw1, hdw2, List.reverse_reverse]
  show (if (if isDigitC c0 = true then 'c' :: 'o' :: 'l' :: '_' :: c0 :: t
      else c0 :: t).isEmpty = true then "unnamed".data
    else (if isDigitC c0 = true then 'c' :: 'o' :: 'l' :: '_' :: c0 :: t else c0 :: t))
    = c0 :: t
  simp [lower_not_digit hc0]

/-- `clean_bq_column_chars` is the identity on normal forms. -/
theorem clean_bq_column_chars_fix {o : List Char} (h : NormCols o) :
    clean_bq_column_chars o = o := by
  obtain ⟨hne, hkeep, hnd, hhead, hlast⟩ := h
  have h1 : o.filter (fun c => c ≠ Char.ofNat 65279) = o :=
    List.filter_eq_self.mpr (fun c hc => by simp [keep_not_bom c (hkeep c hc)])
  have h2 : ((o.dropWhile Char.isWhitespace).reverse.dropWhile Char.isWhitespace).reverse
      = o := strip_fix (fun c hc => keep_not_ws c (hkeep c hc))
  have h3 : o.map Char.toLower = o :=
    map_id_of_fix _ _ (fun c hc => keep_toLower_fix c (hkeep c hc))
  rw [clean_bq_column_chars, h1, h2, h3, replaceChars_fix o hkeep,
    finishCols_fix ⟨hne, hkeep, hnd, hhead, hlast⟩]

/-- A normal form matches the identifier regular expression. -/
theorem matchesIdent_of_norm {l : List Char} (h : NormCols l) :
    matchesIdent (String.mk l) = true := by
  obtain ⟨hne, hkeep, hnd, hhead, hlast⟩ := h
  cases l with
  | nil => exact absurd rfl hne
  | cons c t =>
    show (isLowerAlpha c && t.all keepChar) = true
    rw [Bool.and_eq_true]
    refine ⟨hhead c rfl, ?_⟩
    rw [List.all_eq_true]
    intro x hx
    exact hkeep x (List.mem_cons_of_mem c hx)

/-- C5: `clean_bq_column` is a total deterministic function, idempotent, and
its output always matches `^[a-z][a-z0-9_]*$` (the literal `unnamed`, used
for an empty result, itself matches). -/
theorem c5_clean_bq_column (s : String) :
    clean_bq_column (clean_bq_column s) = clean_bq_column s ∧
    (matchesIdent (clean_bq_column s) = true ∨ clean_bq_column s = "unnamed") := by
  have hA : NormCols (clean_bq_column_chars s.data) := normCols_finishCols _
  constructor
  · show String.mk (clean_bq_column_chars (String.mk (clean_bq_column_chars s.data)).data)
      = String.mk (clean_bq_column_chars s.data)
    rw [show (String.mk (clean_bq_column_chars s.data)).data
        = clean_bq_column_chars s.data from rfl]
    rw [clean_bq_column_chars_fix hA]
  · exact Or.inl (matchesIdent_of_norm hA)
